import Mathlib

/-!
Shallow embedding of the evolution simulation core (Rust crates world and
display) and verification of its specification claims.

Modelling conventions:
* The Rust type Energy is f32; it is modelled by the exact rationals.  All
  claims settled here concern sign tests, comparisons and exact branch
  structure, which the embedding preserves at the concrete inputs used.
* Mutating methods become functions returning the updated value (paired
  with the returned value where the Rust method returns one).
* The grid of cells stores stable indices into the owning collections;
  the Rust code stores raw pointers into those same collections.
* Calls into the thread-local random generator are modelled by oracle
  parameters supplying the drawn values (shuffle orders, brain choices,
  area permutations).
* A Rust panic is modelled by a sticky panicked flag that freezes the
  state, or by a dedicated outcome constructor where a function is
  analysed in isolation.
* Immutable configuration (grid size, population ceilings, plant growth
  energy) is passed as a Config parameter rather than stored in the
  mutable state; the Rust code keeps these fields in Landscape but never
  writes them after construction.
-/

namespace Evolution

/-- Energy of a living being; f32 in the source (landscape.rs), modelled
by the exact rationals. -/
abbrev Energy := ℚ

/-- Species of an animal (animal/mod.rs). -/
inductive AnimaType
  | Herbivore
  | Carnivore
deriving DecidableEq

/-- Facing direction of an animal (animal/mod.rs). -/
inductive AnimalDirection
  | North
  | South
  | West
  | East
deriving DecidableEq

/-- Possible actions of an animal (animal/mod.rs). -/
inductive AnimalAction
  | TurnLeft
  | TurnRight
  | Move
  | Eat
  | Reproduce
  | None
deriving DecidableEq

/-- Possible actions of a plant (plant/mod.rs, reconstructed from its
uses in plant/simple.rs and landscape.rs). -/
inductive PlantAction
  | None
  | Grow
  | Reproduce
deriving DecidableEq

/-- A plant (plant/simple.rs, struct Plant). -/
structure Plant where
  energy : Energy
  max_energy : Energy
  eaten_energy : Energy
  reproduce_energy_rate : ℚ
  no_repro : Bool
deriving DecidableEq

namespace Plant

/-- plant/simple.rs, is_eaten: the plant counts as eaten when its energy
is at most zero. -/
def is_eaten (p : Plant) : Bool := p.energy ≤ 0

/-- plant/simple.rs, action: reproduce when allowed and above the
threshold, otherwise grow while below max energy, otherwise nothing. -/
def action (p : Plant) : PlantAction :=
  if ¬p.no_repro ∧ p.energy > p.reproduce_energy_rate * p.max_energy then
    PlantAction.Reproduce
  else if p.energy < p.max_energy then PlantAction.Grow
  else PlantAction.None

/-- plant/simple.rs, grow_action: add the given energy, then clamp to
max_energy. -/
def grow_action (p : Plant) (energy : Energy) : Plant :=
  let p := { p with energy := p.energy + energy }
  if p.energy > p.max_energy then { p with energy := p.max_energy } else p

/-- plant/simple.rs, reproduce_action: the seed starts with zero energy
and is always allowed to reproduce. -/
def reproduce_action (p : Plant) : Plant :=
  { energy := 0
    max_energy := p.max_energy
    eaten_energy := p.eaten_energy
    reproduce_energy_rate := p.reproduce_energy_rate
    no_repro := false }

/-- plant/simple.rs, inactivity_action: empty body. -/
def inactivity_action (p : Plant) : Plant := p

/-- plant/simple.rs, be_eaten, translated verbatim: when eaten_energy
exceeds the current energy the code subtracts eaten_energy from energy
and returns eaten_energy, otherwise it returns the whole current energy
and zeroes it.  First component is the released energy, second the
updated plant. -/
def be_eaten (p : Plant) : Energy × Plant :=
  if p.eaten_energy > p.energy then
    (p.eaten_energy, { p with energy := p.energy - p.eaten_energy })
  else
    (p.energy, { p with energy := 0 })

end Plant

/-- animal/species/simple.rs, per-action energy cost factors. -/
def TURN_ACTION_ENERGY_RATE : ℚ := 1

/-- animal/species/simple.rs, movement energy cost factor. -/
def MOVE_ACTION_ENERGY_RATE : ℚ := 1

/-- animal/species/simple.rs, eating energy cost factor. -/
def EAT_ACTION_ENERGY_RATE : ℚ := 1

/-- animal/species/simple.rs, reproduction energy cost factor. -/
def REPRODUCE_ACTION_ENERGY_RATE : ℚ := 1

/-- animal/species/simple.rs, inactivity energy cost factor. -/
def NONE_ACTION_ENERGY_RATE : ℚ := 1

/-- An animal (animal/species/simple.rs, struct Animal).  The brain is
not part of the state: its single decision per action is supplied by an
oracle at the call site. -/
structure Animal where
  animal_type : AnimaType
  energy : Energy
  max_energy : Energy
  live_energy : Energy
  birth_energy : Energy
  eaten_energy_rate : ℚ
  reproduce_energy_rate : ℚ
  no_repro : Bool
  direction : AnimalDirection
  age : ℕ
  generation : ℕ
  is_eaten : Bool
  processed : Bool
deriving DecidableEq

namespace Animal

/-- animal/species/simple.rs, is_dead: true when energy is at most
zero. -/
def is_dead (a : Animal) : Bool := a.energy ≤ 0

/-- animal/species/simple.rs, action: increment the age, mark the animal
processed, and force Reproduce above the threshold, otherwise delegate
to the brain (whose result is passed in as brain_choice). -/
def action (a : Animal) (brain_choice : AnimalAction) : AnimalAction × Animal :=
  let a := { a with age := a.age + 1, processed := true }
  if ¬a.no_repro ∧ a.energy > a.reproduce_energy_rate * a.max_energy then
    (AnimalAction.Reproduce, a)
  else (brain_choice, a)

/-- animal/species/simple.rs, turn_action: pay the turn cost and rotate
the facing. -/
def turn_action (a : Animal) (turn_left : Bool) : Animal :=
  let a := { a with energy := a.energy - TURN_ACTION_ENERGY_RATE * a.live_energy }
  match a.direction with
  | AnimalDirection.North =>
      { a with direction := if turn_left then AnimalDirection.West else AnimalDirection.East }
  | AnimalDirection.South =>
      { a with direction := if turn_left then AnimalDirection.East else AnimalDirection.West }
  | AnimalDirection.East =>
      { a with direction := if turn_left then AnimalDirection.North else AnimalDirection.South }
  | AnimalDirection.West =>
      { a with direction := if turn_left then AnimalDirection.South else AnimalDirection.North }

/-- animal/species/simple.rs, move_action: pay the movement cost whether
or not the move was realized. -/
def move_action (a : Animal) (_realized : Bool) : Animal :=
  { a with energy := a.energy - MOVE_ACTION_ENERGY_RATE * a.live_energy }

/-- animal/species/simple.rs, eat_action: pay the eating cost, add the
gained energy, clamp to max_energy. -/
def eat_action (a : Animal) (energy : Energy) : Animal :=
  let a := { a with energy := a.energy - EAT_ACTION_ENERGY_RATE * a.live_energy }
  let a := { a with energy := a.energy + energy }
  if a.energy > a.max_energy then { a with energy := a.max_energy } else a

/-- animal/species/simple.rs, reproduce_action: the parent pays the
reproduction cost plus the birth endowment; the child starts with the
birth endowment, age zero, the next generation, reproduction allowed and
not yet processed.  First component is the updated parent, second the
child. -/
def reproduce_action (a : Animal) : Animal × Animal :=
  let parent :=
    { a with energy :=
        a.energy - REPRODUCE_ACTION_ENERGY_RATE * a.live_energy - a.birth_energy }
  (parent,
    { animal_type := a.animal_type
      energy := a.birth_energy
      max_energy := a.max_energy
      live_energy := a.live_energy
      birth_energy := a.birth_energy
      eaten_energy_rate := a.eaten_energy_rate
      reproduce_energy_rate := a.reproduce_energy_rate
      no_repro := false
      direction := a.direction
      age := 0
      generation := a.generation + 1
      is_eaten := false
      processed := false })

/-- animal/species/simple.rs, inactivity_action: pay the homeostasis
cost. -/
def inactivity_action (a : Animal) : Animal :=
  { a with energy := a.energy - NONE_ACTION_ENERGY_RATE * a.live_energy }

/-- animal/species/simple.rs, be_eaten: a herbivore releases
eaten_energy_rate times its energy, is zeroed, marked eaten and marked
processed; a carnivore releases 0 unchanged. -/
def be_eaten (a : Animal) : Energy × Animal :=
  if a.animal_type = AnimaType.Herbivore then
    (a.eaten_energy_rate * a.energy,
      { a with energy := 0, is_eaten := true, processed := true })
  else (0, a)

/-- animal/species/simple.rs, clear: reset the processed flag. -/
def clear (a : Animal) : Animal := { a with processed := false }

end Animal

/-- landscape.rs, grid offsets for the forward arc when facing North. -/
def NORTH_FRONT : List (ℤ × ℤ) := [(-2, -2), (-1, -2), (0, -2), (1, -2), (2, -2)]

/-- landscape.rs, grid offsets to the left when facing North. -/
def NORTH_LEFT : List (ℤ × ℤ) := [(-2, 0), (-2, -1)]

/-- landscape.rs, grid offsets to the right when facing North. -/
def NORTH_RIGHT : List (ℤ × ℤ) := [(2, 0), (2, -1)]

/-- landscape.rs, proximity offsets when facing North. -/
def NORTH_PROXIMITY : List (ℤ × ℤ) := [(-1, 0), (-1, -1), (0, -1), (1, -1), (1, 0)]

/-- landscape.rs, grid offsets for the forward arc when facing South. -/
def SOUTH_FRONT : List (ℤ × ℤ) := [(2, 2), (1, 2), (0, 2), (-1, 2), (-2, 2)]

/-- landscape.rs, grid offsets to the left when facing South. -/
def SOUTH_LEFT : List (ℤ × ℤ) := [(2, 0), (2, 1)]

/-- landscape.rs, grid offsets to the right when facing South. -/
def SOUTH_RIGHT : List (ℤ × ℤ) := [(-2, 0), (-2, 1)]

/-- landscape.rs, proximity offsets when facing South. -/
def SOUTH_PROXIMITY : List (ℤ × ℤ) := [(1, 0), (1, 1), (0, 1), (-1, 1), (-1, 0)]

/-- landscape.rs, grid offsets for the forward arc when facing West. -/
def WEST_FRONT : List (ℤ × ℤ) := [(-2, 2), (-2, 1), (-2, 0), (-2, -1), (-2, -2)]

/-- landscape.rs, grid offsets to the left when facing West. -/
def WEST_LEFT : List (ℤ × ℤ) := [(0, 2), (-1, 2)]

/-- landscape.rs, grid offsets to the right when facing West. -/
def WEST_RIGHT : List (ℤ × ℤ) := [(0, -2), (-1, -2)]

/-- landscape.rs, proximity offsets when facing West. -/
def WEST_PROXIMITY : List (ℤ × ℤ) := [(0, 1), (-1, 1), (-1, 0), (-1, 1), (0, 1)]

/-- landscape.rs, grid offsets for the forward arc when facing East,
exactly as written in the source. -/
def EAST_FRONT : List (ℤ × ℤ) := [(-2, 2), (-2, 1), (-2, 0), (-2, -1), (-2, -2)]

/-- landscape.rs, grid offsets to the left when facing East, exactly as
written in the source. -/
def EAST_LEFT : List (ℤ × ℤ) := [(0, 2), (-1, 2)]

/-- landscape.rs, grid offsets to the right when facing East, exactly as
written in the source. -/
def EAST_RIGHT : List (ℤ × ℤ) := [(0, -2), (-1, -2)]

/-- landscape.rs, proximity offsets when facing East, exactly as written
in the source. -/
def EAST_PROXIMITY : List (ℤ × ℤ) := [(0, 1), (-1, 1), (-1, 0), (-1, 1), (0, 1)]

/-- Point reflection of a grid offset, the transformation named by the
spec sentence on South/East offset tables. -/
def pointReflect (p : ℤ × ℤ) : ℤ × ℤ := (-p.1, -p.2)

/-- animal/brains/simple.rs: outcome of the action-selection procedure;
panicked models the panic at the end of choose_action. -/
inductive ChooseOutcome
  | ret (a : AnimalAction)
  | panicked
deriving DecidableEq

/-- animal/brains/simple.rs, choose_action: translation of an output
index to the action it encodes. -/
def action_of_out : ℕ → AnimalAction
  | 0 => AnimalAction.TurnLeft
  | 1 => AnimalAction.TurnRight
  | 2 => AnimalAction.Move
  | 3 => AnimalAction.Eat
  | _ => AnimalAction.None

/-- animal/brains/simple.rs, choose_action, first loop: the indices and
values of the strictly positive output scores, in order. -/
def positive_outs (actions : List ℚ) : List (ℕ × ℚ) :=
  actions.enum.filter fun p => 0 < p.2

/-- animal/brains/simple.rs, choose_action, first loop: the sum of the
strictly positive output scores. -/
def total_of (actions : List ℚ) : ℚ :=
  ((positive_outs actions).map Prod.snd).sum

/-- animal/brains/simple.rs, choose_action, second loop: walk the
positive scores accumulating a lower bound x1 and upper bound x1 + v,
returning the first action whose window contains the draw; falling off
the end reaches the panic. -/
def choose_loop (pairs : List (ℕ × ℚ)) (choose x1 : ℚ) : ChooseOutcome :=
  match pairs with
  | [] => ChooseOutcome.panicked
  | (out, v) :: rest =>
      if choose ≥ x1 ∧ choose < x1 + v then ChooseOutcome.ret (action_of_out out)
      else choose_loop rest choose (x1 + v)

/-- animal/brains/simple.rs, choose_action: when no output is positive
the result is the None action, otherwise the weighted draw (the drawn
value, sampled in Rust from the closed interval from 0 to the total, is
passed in as choose). -/
def choose_action (actions : List ℚ) (choose : ℚ) : ChooseOutcome :=
  if positive_outs actions = [] then ChooseOutcome.ret AnimalAction.None
  else choose_loop (positive_outs actions) choose 0

/-- Specification-side selection function: the first positive-score
index whose cumulative running sum exceeds the draw. -/
def first_exceed (pairs : List (ℕ × ℚ)) (choose x1 : ℚ) : Option ℕ :=
  match pairs with
  | [] => none
  | (out, v) :: rest =>
      if choose < x1 + v then some out else first_exceed rest choose (x1 + v)

/-- Dot product of two weight rows (nalgebra matrix-vector product,
restricted to one output row). -/
def dot (u v : List ℚ) : ℚ := (List.zipWith (· * ·) u v).sum

/-- animal/brains/simple.rs, action: the four output scores are bias
plus weight matrix times the perception vector. -/
def brain_outputs (weights : List (List ℚ)) (bias inputs : List ℚ) : List ℚ :=
  List.zipWith (fun b row => b + dot row inputs) bias weights

/-- animal/brains/simple.rs, action followed by choose_action, with the
random draw passed in as choose. -/
def brain_choose (weights : List (List ℚ)) (bias inputs : List ℚ) (choose : ℚ) :
    ChooseOutcome :=
  choose_action (brain_outputs weights bias inputs) choose

/-- display/src/lib.rs, CellStuff: how a cell can be displayed, in
declaration order (which is also its derived priority order). -/
inductive CellStuff
  | KilledAnimal
  | DeadAnimal
  | HerbLeft
  | HerbRight
  | HerbFront
  | HerbBack
  | CarnLeft
  | CarnRight
  | CarnFront
  | CarnBack
  | Plant
  | None
deriving DecidableEq

/-- Rank of a CellStuff value in its declaration order; the derived Rust
Ord instance compares by this rank. -/
def CellStuff.rank : CellStuff → ℕ
  | CellStuff.KilledAnimal => 0
  | CellStuff.DeadAnimal => 1
  | CellStuff.HerbLeft => 2
  | CellStuff.HerbRight => 3
  | CellStuff.HerbFront => 4
  | CellStuff.HerbBack => 5
  | CellStuff.CarnLeft => 6
  | CellStuff.CarnRight => 7
  | CellStuff.CarnFront => 8
  | CellStuff.CarnBack => 9
  | CellStuff.Plant => 10
  | CellStuff.None => 11

/-- landscape.rs, AgentType. -/
inductive AgentType
  | Plant
  | Herbivore
  | Carnivore
deriving DecidableEq

/-- errors.rs, AddAgentError. -/
inductive AddAgentError
  | TakenCell (x y : ℕ)
  | OutOfBounds (x y : ℕ)
deriving DecidableEq

/-- landscape.rs, find_empty_spot: its three possible outcomes.  The
recoverable constructor models returning Err of a RecoverableError, the
panicked constructor models the panic when the animal placement scan is
exhausted. -/
inductive SpotOutcome
  | found (x y : ℕ)
  | recoverable
  | panicked
deriving DecidableEq

/-- landscape.rs, Cell: at most one plant occupant and one animal
occupant, stored as stable indices into the owning collections. -/
structure Cell where
  plant : Option ℕ
  animal : Option ℕ
deriving DecidableEq

/-- Immutable configuration of the world: the fields of Landscape that
are set in Landscape::new and never written afterwards. -/
structure Config where
  width : ℕ
  height : ℕ
  max_plants : ℕ
  max_herbivore : ℕ
  max_carnivore : ℕ
  plant_grow_energy : Energy

/-- landscape.rs, struct Landscape, mutable part.  Vec of boxed agents
becomes a list indexed by stable indices; raw pointers in cells, in
dead_animals and in the best-animal statistics become those indices.
The invocations field is a ghost instrumentation counting how many times
each animal index went through the action (intend) call in the current
tick; it has no counterpart in the source and influences nothing.  The
panicked flag is sticky and models process abort. -/
structure Landscape where
  animals : List Animal
  plants : List Plant
  dead_animals : List ℕ
  grid : ℕ → ℕ → Cell
  plant_count : ℕ
  animal_count : ℕ × ℕ
  best_animal : Option ℕ × Option ℕ
  best_death_animal : Option ℕ × Option ℕ
  animal_reproductions : ℕ × ℕ
  animal_deaths : ℕ × ℕ
  animal_max_generation : ℕ × ℕ
  view_state : List (ℕ × ℕ × CellStuff)
  panicked : Bool
  invocations : ℕ → ℕ

/-- Replace the element at an index of a list, leaving other elements
and the length unchanged (the effect of a Rust mutation through a
pointer into the owning Vec). -/
def listModify {α : Type} (l : List α) (i : ℕ) (f : α → α) : List α :=
  match l, i with
  | [], _ => []
  | a :: t, 0 => f a :: t
  | a :: t, i + 1 => a :: listModify t i f

/-- Update one animal in place through its index. -/
def modifyAnimal (L : Landscape) (i : ℕ) (f : Animal → Animal) : Landscape :=
  { L with animals := listModify L.animals i f }

/-- Update one plant in place through its index. -/
def modifyPlant (L : Landscape) (i : ℕ) (f : Plant → Plant) : Landscape :=
  { L with plants := listModify L.plants i f }

/-- Write the animal slot of one cell. -/
def setCellAnimal (L : Landscape) (x y : ℕ) (v : Option ℕ) : Landscape :=
  { L with grid := fun p q =>
      if p = x ∧ q = y then { L.grid p q with animal := v } else L.grid p q }

/-- Write the plant slot of one cell. -/
def setCellPlant (L : Landscape) (x y : ℕ) (v : Option ℕ) : Landscape :=
  { L with grid := fun p q =>
      if p = x ∧ q = y then { L.grid p q with plant := v } else L.grid p q }

/-- landscape.rs, Landscape::clip: clip a coordinate to the toroidal
world.  Negative coordinates are offset from the top boundary, too large
ones are reduced modulo the size. -/
def clip (coord : ℤ) (max_size : ℕ) : ℕ :=
  if coord < 0 then (max_size + coord).toNat
  else if coord > (max_size : ℤ) - 1 then (coord % (max_size : ℤ)).toNat
  else coord.toNat

/-- Scan one grid column for the first index satisfying the predicate
(inner loop of find_empty_spot). -/
def first_free_in_col (p : ℕ → ℕ → Bool) (x : ℕ) : List ℕ → Option (ℕ × ℕ)
  | [] => none
  | y :: ys => if p x y then some (x, y) else first_free_in_col p x ys

/-- Scan the grid in the given shuffled orders for the first cell
satisfying the predicate (both loops of find_empty_spot). -/
def first_free (p : ℕ → ℕ → Bool) : List ℕ → List ℕ → Option (ℕ × ℕ)
  | [], _ => none
  | x :: xs, ys =>
      match first_free_in_col p x ys with
      | some c => some c
      | none => first_free p xs ys

/-- landscape.rs, find_empty_spot: reject when the population ceiling of
the agent type is reached; otherwise scan all cells in the shuffled
orders sw, sh for a free slot of the right kind.  An exhausted scan is a
recoverable error for a plant and a panic for an animal. -/
def find_empty_spot (cfg : Config) (sw sh : List ℕ) (L : Landscape)
    (agent_type : AgentType) : SpotOutcome :=
  let ceiling : Bool :=
    match agent_type with
    | AgentType.Plant => L.plant_count ≥ cfg.max_plants
    | AgentType.Herbivore => L.animal_count.1 ≥ cfg.max_herbivore
    | AgentType.Carnivore => L.animal_count.2 ≥ cfg.max_carnivore
  if ceiling then
    SpotOutcome.recoverable
  else
    match agent_type with
    | AgentType.Plant =>
        match first_free (fun x y => (L.grid x y).plant = none) sw sh with
        | some c => SpotOutcome.found c.1 c.2
        | none => SpotOutcome.recoverable
    | _ =>
        match first_free (fun x y => (L.grid x y).animal = none) sw sh with
        | some c => SpotOutcome.found c.1 c.2
        | none => SpotOutcome.panicked

/-- landscape.rs, add_plant: bounds check, clip, occupied check, then
store the index in the cell, push the plant and bump the count.  The
first component is the Rust Result, the second the state after the call
(unchanged on error). -/
def add_plant (cfg : Config) (L : Landscape) (x y : ℕ) (plant : Plant) :
    Except AddAgentError Unit × Landscape :=
  if x ≥ cfg.width ∨ y ≥ cfg.height then
    (Except.error (AddAgentError.OutOfBounds x y), L)
  else
    let x := clip (x : ℤ) cfg.width
    let y := clip (y : ℤ) cfg.height
    match (L.grid x y).plant with
    | none =>
        let pid := L.plants.length
        let L := setCellPlant L x y (some pid)
        let L := { L with plants := L.plants ++ [plant], plant_count := L.plant_count + 1 }
        (Except.ok (), L)
    | some _ => (Except.error (AddAgentError.TakenCell x y), L)

/-- landscape.rs, add_animal: bounds check, clip, occupied check, then
store the index in the cell, push the animal and bump the per-species
count. -/
def add_animal (cfg : Config) (L : Landscape) (x y : ℕ) (animal : Animal) :
    Except AddAgentError Unit × Landscape :=
  if x ≥ cfg.width ∨ y ≥ cfg.height then
    (Except.error (AddAgentError.OutOfBounds x y), L)
  else
    let x := clip (x : ℤ) cfg.width
    let y := clip (y : ℤ) cfg.height
    match (L.grid x y).animal with
    | none =>
        let aid := L.animals.length
        let L := setCellAnimal L x y (some aid)
        let L := { L with animals := L.animals ++ [animal] }
        let L :=
          match animal.animal_type with
          | AnimaType.Herbivore =>
              { L with animal_count := (L.animal_count.1 + 1, L.animal_count.2) }
          | AnimaType.Carnivore =>
              { L with animal_count := (L.animal_count.1, L.animal_count.2 + 1) }
        (Except.ok (), L)
    | some _ => (Except.error (AddAgentError.TakenCell x y), L)

/-- animal/mod.rs, AnimalInputSignal: the 12 perception counts. -/
structure AnimalInputSignal where
  plant_front : ℕ
  plant_left : ℕ
  plant_right : ℕ
  plant_proximity : ℕ
  herbivore_front : ℕ
  herbivore_left : ℕ
  herbivore_right : ℕ
  herbivore_proximity : ℕ
  carnivore_front : ℕ
  carnivore_left : ℕ
  carnivore_right : ℕ
  carnivore_proximity : ℕ
deriving DecidableEq

/-- landscape.rs, count_agents_in_area: walk the offsets, clip each to
the torus, and count not-eaten plants and not-dead herbivores and
carnivores. -/
def count_agents_in_area (cfg : Config) (L : Landscape) (offsets : List (ℤ × ℤ))
    (x y : ℕ) : ℕ × ℕ × ℕ :=
  offsets.foldl
    (fun acc coord =>
      let x_off := clip ((x : ℤ) + coord.1) cfg.width
      let y_off := clip ((y : ℤ) + coord.2) cfg.height
      let acc :=
        match (L.grid x_off y_off).plant with
        | some pid =>
            match L.plants.get? pid with
            | some p => if ¬p.is_eaten then (acc.1 + 1, acc.2.1, acc.2.2) else acc
            | none => acc
        | none => acc
      match (L.grid x_off y_off).animal with
      | some bid =>
          match L.animals.get? bid with
          | some b =>
              if ¬b.is_dead then
                match b.animal_type with
                | AnimaType.Herbivore => (acc.1, acc.2.1 + 1, acc.2.2)
                | AnimaType.Carnivore => (acc.1, acc.2.1, acc.2.2 + 1)
              else acc
          | none => acc
      | none => acc)
    (0, 0, 0)

/-- The front offset table of a facing direction. -/
def front_of : AnimalDirection → List (ℤ × ℤ)
  | AnimalDirection.North => NORTH_FRONT
  | AnimalDirection.South => SOUTH_FRONT
  | AnimalDirection.West => WEST_FRONT
  | AnimalDirection.East => EAST_FRONT

/-- The left offset table of a facing direction. -/
def left_of : AnimalDirection → List (ℤ × ℤ)
  | AnimalDirection.North => NORTH_LEFT
  | AnimalDirection.South => SOUTH_LEFT
  | AnimalDirection.West => WEST_LEFT
  | AnimalDirection.East => EAST_LEFT

/-- The right offset table of a facing direction. -/
def right_of : AnimalDirection → List (ℤ × ℤ)
  | AnimalDirection.North => NORTH_RIGHT
  | AnimalDirection.South => SOUTH_RIGHT
  | AnimalDirection.West => WEST_RIGHT
  | AnimalDirection.East => EAST_RIGHT

/-- The proximity offset table of a facing direction. -/
def proximity_of : AnimalDirection → List (ℤ × ℤ)
  | AnimalDirection.North => NORTH_PROXIMITY
  | AnimalDirection.South => SOUTH_PROXIMITY
  | AnimalDirection.West => WEST_PROXIMITY
  | AnimalDirection.East => EAST_PROXIMITY

/-- landscape.rs, percept: fill the 12 input counts from the four area
scans of the animal's facing direction. -/
def percept (cfg : Config) (L : Landscape) (dir : AnimalDirection) (x y : ℕ) :
    AnimalInputSignal :=
  let f := count_agents_in_area cfg L (front_of dir) x y
  let l := count_agents_in_area cfg L (left_of dir) x y
  let r := count_agents_in_area cfg L (right_of dir) x y
  let p := count_agents_in_area cfg L (proximity_of dir) x y
  { plant_front := f.1, herbivore_front := f.2.1, carnivore_front := f.2.2
    plant_left := l.1, herbivore_left := l.2.1, carnivore_left := l.2.2
    plant_right := r.1, herbivore_right := r.2.1, carnivore_right := r.2.2
    plant_proximity := p.1, herbivore_proximity := p.2.1, carnivore_proximity := p.2.2 }

/-- landscape.rs, choose_plant: walk the (already permuted) area and
return the first clipped cell holding a plant. -/
def choose_plant (cfg : Config) (L : Landscape) (x y : ℕ) :
    List (ℤ × ℤ) → Option (ℕ × ℕ)
  | [] => none
  | offset :: rest =>
      let x_off := clip ((x : ℤ) + offset.1) cfg.width
      let y_off := clip ((y : ℤ) + offset.2) cfg.height
      match (L.grid x_off y_off).plant with
      | some _ => some (x_off, y_off)
      | none => choose_plant cfg L x y rest

/-- landscape.rs, choose_animal: walk the (already permuted) area and
return the first clipped cell holding an animal of the wanted type. -/
def choose_animal (cfg : Config) (L : Landscape) (want : AnimaType) (x y : ℕ) :
    List (ℤ × ℤ) → Option (ℕ × ℕ)
  | [] => none
  | offset :: rest =>
      let x_off := clip ((x : ℤ) + offset.1) cfg.width
      let y_off := clip ((y : ℤ) + offset.2) cfg.height
      match (L.grid x_off y_off).animal with
      | some bid =>
          match L.animals.get? bid with
          | some b =>
              if b.animal_type = want then some (x_off, y_off)
              else choose_animal cfg L want x y rest
          | none => choose_animal cfg L want x y rest
      | none => choose_animal cfg L want x y rest

/-- All draws of the thread-local random generator made during one tick:
the two shuffled axis orders, the decision of each animal's brain as a
function of its index and perception, and the permutation that
randomize_coord_vector applies to the proximity area at each cell. -/
structure Oracle where
  shufW : List ℕ
  shufH : List ℕ
  brain : ℕ → AnimalInputSignal → AnimalAction
  shufArea : ℕ → ℕ → List (ℤ × ℤ) → List (ℤ × ℤ)

/-- landscape.rs, movement_animal_action, destination computation: one
step in the facing direction, clipped to the torus. -/
def move_dest (cfg : Config) (dir : AnimalDirection) (x y : ℕ) : ℕ × ℕ :=
  match dir with
  | AnimalDirection.North => (x, clip ((y : ℤ) - 1) cfg.height)
  | AnimalDirection.South => (x, clip ((y : ℤ) + 1) cfg.height)
  | AnimalDirection.West => (clip ((x : ℤ) - 1) cfg.width, y)
  | AnimalDirection.East => (clip ((x : ℤ) + 1) cfg.width, y)

/-- landscape.rs, movement_animal_action: compute the destination cell
in the facing direction with toroidal wrap; if its animal slot is taken
the move fails (cost still paid), otherwise the occupancy index is
transferred and the old slot cleared. -/
def movement_animal_action (cfg : Config) (L : Landscape) (aid x y : ℕ) : Landscape :=
  match L.animals.get? aid with
  | none => { L with panicked := true }
  | some a =>
      let coords := move_dest cfg a.direction x y
      match (L.grid coords.1 coords.2).animal with
      | some _ => modifyAnimal L aid (fun b => b.move_action false)
      | none =>
          let L := setCellAnimal L coords.1 coords.2 (L.grid x y).animal
          let L := setCellAnimal L x y none
          modifyAnimal L aid (fun b => b.move_action true)

/-- landscape.rs, eating_animal_action: a herbivore picks a plant in the
permuted proximity area and eats it; a carnivore picks a herbivore there,
panics if the target turns out to be a carnivore, and eats it.  A missing
target is a no-op. -/
def eating_animal_action (cfg : Config) (o : Oracle) (L : Landscape)
    (aid x y : ℕ) : Landscape :=
  match L.animals.get? aid with
  | none => { L with panicked := true }
  | some a =>
      match a.animal_type with
      | AnimaType.Herbivore =>
          match choose_plant cfg L x y (o.shufArea x y (proximity_of a.direction)) with
          | some c =>
              match (L.grid c.1 c.2).plant with
              | some pid =>
                  match L.plants.get? pid with
                  | some p =>
                      let r := p.be_eaten
                      let L := modifyPlant L pid (fun _ => r.2)
                      modifyAnimal L aid (fun b => b.eat_action r.1)
                  | none => { L with panicked := true }
              | none => L
          | none => L
      | AnimaType.Carnivore =>
          match choose_animal cfg L AnimaType.Herbivore x y
              (o.shufArea x y (proximity_of a.direction)) with
          | some c =>
              match (L.grid c.1 c.2).animal with
              | some hid =>
                  match L.animals.get? hid with
                  | some h =>
                      if h.animal_type = AnimaType.Carnivore then { L with panicked := true }
                      else
                        let r := h.be_eaten
                        let L := modifyAnimal L hid (fun _ => r.2)
                        modifyAnimal L aid (fun b => b.eat_action r.1)
                  | none => { L with panicked := true }
              | none => L
          | none => L

/-- landscape.rs, reproduce_animal_action: find an empty spot for the
species; on success the parent pays, the child is inserted (a failing
insertion is an internal panic) and the reproduction and max-generation
statistics are updated; a recoverable failure is silently skipped. -/
def reproduce_animal_action (cfg : Config) (sw sh : List ℕ) (L : Landscape)
    (aid : ℕ) : Landscape :=
  match L.animals.get? aid with
  | none => { L with panicked := true }
  | some a =>
      let agent_type :=
        if a.animal_type = AnimaType.Herbivore then AgentType.Herbivore
        else AgentType.Carnivore
      match find_empty_spot cfg sw sh L agent_type with
      | SpotOutcome.found cx cy =>
          let r := a.reproduce_action
          let L := modifyAnimal L aid (fun _ => r.1)
          let generation := r.2.generation
          let res := add_animal cfg L cx cy r.2
          match res.1 with
          | Except.ok _ =>
              (match a.animal_type with
               | AnimaType.Herbivore =>
                   let L := { res.2 with animal_reproductions :=
                       (res.2.animal_reproductions.1 + 1, res.2.animal_reproductions.2) }
                   if L.animal_max_generation.1 < generation then
                     { L with animal_max_generation :=
                         (generation, L.animal_max_generation.2) }
                   else L
               | AnimaType.Carnivore =>
                   let L := { res.2 with animal_reproductions :=
                       (res.2.animal_reproductions.1, res.2.animal_reproductions.2 + 1) }
                   if L.animal_max_generation.2 < generation then
                     { L with animal_max_generation :=
                         (L.animal_max_generation.1, generation) }
                   else L)
          | Except.error _ => { res.2 with panicked := true }
      | SpotOutcome.recoverable => L
      | SpotOutcome.panicked => { L with panicked := true }

/-- landscape.rs, simulate_animal: perceive, ask the animal for its
action (bumping the ghost invocation counter), then resolve the action.
The ghost counter increment models nothing in the source; it only
records that the action (intend) call happened. -/
def simulate_animal (cfg : Config) (o : Oracle) (L : Landscape) (aid x y : ℕ) :
    Landscape :=
  match L.animals.get? aid with
  | none => { L with panicked := true }
  | some a =>
      let inputs := percept cfg L a.direction x y
      let r := a.action (o.brain aid inputs)
      let L := modifyAnimal L aid (fun _ => r.2)
      let L := { L with invocations := fun i =>
          if i = aid then L.invocations i + 1 else L.invocations i }
      match r.1 with
      | AnimalAction.TurnLeft => modifyAnimal L aid (fun b => b.turn_action true)
      | AnimalAction.TurnRight => modifyAnimal L aid (fun b => b.turn_action false)
      | AnimalAction.Move => movement_animal_action cfg L aid x y
      | AnimalAction.Eat => eating_animal_action cfg o L aid x y
      | AnimalAction.Reproduce => reproduce_animal_action cfg o.shufW o.shufH L aid
      | AnimalAction.None => modifyAnimal L aid (fun b => b.inactivity_action)

/-- landscape.rs, simulate_plant: ask the plant for its action and
resolve it; growth adds the configured growth energy, reproduction
inserts the seed at a free spot found by the shuffled scan (failure to
insert at a found spot is an internal panic), inactivity does nothing. -/
def simulate_plant (cfg : Config) (sw sh : List ℕ) (L : Landscape) (pid : ℕ) :
    Landscape :=
  match L.plants.get? pid with
  | none => { L with panicked := true }
  | some p =>
      match p.action with
      | PlantAction.None => L
      | PlantAction.Grow =>
          modifyPlant L pid (fun _ => p.grow_action cfg.plant_grow_energy)
      | PlantAction.Reproduce =>
          match find_empty_spot cfg sw sh L AgentType.Plant with
          | SpotOutcome.found cx cy =>
              let res := add_plant cfg L cx cy p.reproduce_action
              match res.1 with
              | Except.ok _ => res.2
              | Except.error _ => { res.2 with panicked := true }
          | SpotOutcome.recoverable => L
          | SpotOutcome.panicked => { L with panicked := true }

/-- landscape.rs, tick, loop body for one cell: simulate the plant
occupant if present, then the animal occupant if present, not yet
processed this tick, and alive; reaching a dead animal is a panic.  A
panicked state is frozen. -/
def process_cell (cfg : Config) (o : Oracle) (L : Landscape) (x y : ℕ) : Landscape :=
  if L.panicked then L
  else
    let L1 :=
      match (L.grid x y).plant with
      | some pid => simulate_plant cfg o.shufW o.shufH L pid
      | none => L
    if L1.panicked then L1
    else
      match (L1.grid x y).animal with
      | some aid =>
          match L1.animals.get? aid with
          | none => { L1 with panicked := true }
          | some a =>
              if a.processed then L1
              else if a.is_dead then { L1 with panicked := true }
              else simulate_animal cfg o L1 aid x y
      | none => L1

/-- landscape.rs, tick, both shuffled loops over the grid. -/
def sweep (cfg : Config) (o : Oracle) (L : Landscape) : Landscape :=
  o.shufW.foldl (fun L x => o.shufH.foldl (fun L y => process_cell cfg o L x y) L) L

/-- landscape.rs, send_to_heaven: clear the cell, push the index onto
the deceased collection, update the death statistics and possibly the
longest-lived-deceased reference.  The owning animals collection is not
touched. -/
def send_to_heaven (L : Landscape) (aid x y : ℕ) : Landscape :=
  let L := setCellAnimal L x y none
  let L := { L with dead_animals := L.dead_animals ++ [aid] }
  match L.animals.get? aid with
  | none => { L with panicked := true }
  | some a =>
      match a.animal_type with
      | AnimaType.Herbivore =>
          let L := { L with
            animal_count := (L.animal_count.1 - 1, L.animal_count.2),
            animal_deaths := (L.animal_deaths.1 + 1, L.animal_deaths.2) }
          match L.best_death_animal.1 with
          | some bid =>
              match L.animals.get? bid with
              | some best =>
                  if a.age > best.age then
                    { L with best_death_animal := (some aid, L.best_death_animal.2) }
                  else L
              | none => { L with panicked := true }
          | none => L
      | AnimaType.Carnivore =>
          let L := { L with
            animal_count := (L.animal_count.1, L.animal_count.2 - 1),
            animal_deaths := (L.animal_deaths.1, L.animal_deaths.2 + 1) }
          match L.best_death_animal.2 with
          | some bid =>
              match L.animals.get? bid with
              | some best =>
                  if a.age > best.age then
                    { L with best_death_animal := (L.best_death_animal.1, some aid) }
                  else L
              | none => { L with panicked := true }
          | none => L

/-- landscape.rs, update_best_animal: possibly update the longest-lived
live reference of the species. -/
def update_best_animal (L : Landscape) (aid : ℕ) : Landscape :=
  match L.animals.get? aid with
  | none => { L with panicked := true }
  | some a =>
      match a.animal_type with
      | AnimaType.Herbivore =>
          match L.best_animal.1 with
          | some bid =>
              match L.animals.get? bid with
              | some best =>
                  if a.age > best.age then
                    { L with best_animal := (some aid, L.best_animal.2) }
                  else L
              | none => { L with panicked := true }
          | none => L
      | AnimaType.Carnivore =>
          match L.best_animal.2 with
          | some bid =>
              match L.animals.get? bid with
              | some best =>
                  if a.age > best.age then
                    { L with best_animal := (L.best_animal.1, some aid) }
                  else L
              | none => { L with panicked := true }
          | none => L

/-- The directional sprite of a live animal (final_processing). -/
def sprite_of (a : Animal) : CellStuff :=
  match a.animal_type, a.direction with
  | AnimaType.Herbivore, AnimalDirection.North => CellStuff.HerbBack
  | AnimaType.Herbivore, AnimalDirection.South => CellStuff.HerbFront
  | AnimaType.Herbivore, AnimalDirection.West => CellStuff.HerbLeft
  | AnimaType.Herbivore, AnimalDirection.East => CellStuff.HerbRight
  | AnimaType.Carnivore, AnimalDirection.North => CellStuff.CarnBack
  | AnimaType.Carnivore, AnimalDirection.South => CellStuff.CarnFront
  | AnimaType.Carnivore, AnimalDirection.West => CellStuff.CarnLeft
  | AnimaType.Carnivore, AnimalDirection.East => CellStuff.CarnRight

/-- The head of the sorted per-cell marker list: the minimum in the
derived priority order, keeping the earlier entry on ties (Rust sorts
the list stably and takes its first element). -/
def view_first (l : List CellStuff) : Option CellStuff :=
  l.foldl
    (fun acc s =>
      match acc with
      | none => some s
      | some t => if s.rank < t.rank then some s else some t)
    none

/-- Append the highest-priority marker of a cell, if any, to the view
snapshot being rebuilt. -/
def push_view (L : Landscape) (x y : ℕ) (tmp : List CellStuff) : Landscape :=
  match view_first tmp with
  | some s => { L with view_state := L.view_state ++ [(x, y, s)] }
  | none => L

/-- landscape.rs, final_processing, loop body for one cell: collect the
markers of the cell, removing a dead animal to the deceased set or
clearing a live animal's processed flag and updating the longest-lived
statistics on the way. -/
def final_cell (L : Landscape) (x y : ℕ) : Landscape :=
  if L.panicked then L
  else
    let tmpP : List CellStuff :=
      match (L.grid x y).plant with
      | some _ => [CellStuff.Plant]
      | none => []
    match (L.grid x y).animal with
    | some aid =>
        match L.animals.get? aid with
        | none => { L with panicked := true }
        | some a =>
            if a.is_dead then
              let L := send_to_heaven L aid x y
              push_view L x y
                (tmpP ++ [if a.is_eaten then CellStuff.KilledAnimal else CellStuff.DeadAnimal])
            else
              let L := modifyAnimal L aid (fun b => b.clear)
              let L := update_best_animal L aid
              push_view L x y (tmpP ++ [sprite_of a])
    | none => push_view L x y tmpP

/-- landscape.rs, final_processing: clear the view snapshot and walk all
cells in row-major order. -/
def final_processing (cfg : Config) (L : Landscape) : Landscape :=
  let L := { L with view_state := [] }
  (List.range cfg.width).foldl
    (fun L x => (List.range cfg.height).foldl (fun L y => final_cell L x y) L) L

/-- landscape.rs, tick: reshuffle the axis orders (supplied by the
oracle), sweep all cells in the shuffled order, then run the end-of-tick
processing; a panic during the sweep aborts before final processing. -/
def tick (cfg : Config) (o : Oracle) (L : Landscape) : Landscape :=
  let L := sweep cfg o L
  if L.panicked then L else final_processing cfg L

/-- Growth ordering between two landscape states: the owning animals
collection never shrinks and the deceased collection keeps every entry.
Every operation of a tick satisfies it, so no animal is ever removed
from the owning collection and no deceased entry is ever dropped. -/
def SubState (L L' : Landscape) : Prop :=
  L.animals.length ≤ L'.animals.length ∧
  ∀ i ∈ L.dead_animals, i ∈ L'.dead_animals

/-- Flag-preserving evolution between two landscape states within the
sweep: the ghost invocation counters are untouched and an animal whose
processed flag is set keeps a set flag (nothing inside the sweep ever
clears it).  Every action-resolution operation satisfies it. -/
def FlagKeep (L L' : Landscape) : Prop :=
  L'.invocations = L.invocations ∧
  ∀ i a, L.animals.get? i = some a → a.processed = true →
    ∃ a', L'.animals.get? i = some a' ∧ a'.processed = true

/-- The double-processing invariant of the sweep: every animal has gone
through the action (intend) call at most once this tick, and an animal
that has gone through it is marked processed. -/
def FlagsOK (L : Landscape) : Prop :=
  ∀ i, L.invocations i ≤ 1 ∧
    (1 ≤ L.invocations i → ∃ a, L.animals.get? i = some a ∧ a.processed = true)

/-- The end-of-tick postcondition at one cell: a live animal residing
there has a cleared processed flag. -/
def ClearedAt (L : Landscape) (x y : ℕ) : Prop :=
  ∀ aid a, (L.grid x y).animal = some aid → L.animals.get? aid = some a →
    a.is_dead = false → a.processed = false

/-- A concrete herbivore used to evaluate the agent operations. -/
def sampleHerbivore : Animal :=
  { animal_type := AnimaType.Herbivore
    energy := 5
    max_energy := 60
    live_energy := 1
    birth_energy := 2
    eaten_energy_rate := 3/10
    reproduce_energy_rate := 9/10
    no_repro := false
    direction := AnimalDirection.North
    age := 0
    generation := 0
    is_eaten := false
    processed := false }

/-- A concrete carnivore used to evaluate the agent operations. -/
def sampleCarnivore : Animal :=
  { sampleHerbivore with animal_type := AnimaType.Carnivore, energy := 8 }

/-- A concrete plant used to evaluate the agent operations. -/
def samplePlant : Plant :=
  { energy := 8
    max_energy := 15
    eaten_energy := 10
    reproduce_energy_rate := 1/2
    no_repro := false }

/-- A herbivore whose energy is below one action cost. -/
def lowEnergyAnimal : Animal := { sampleHerbivore with energy := 1/2 }

/-- A herbivore that died (energy exactly zero) after having acted. -/
def deadProcessedAnimal : Animal := { sampleHerbivore with energy := 0, processed := true }

/-- A herbivore facing East. -/
def sampleEastHerb : Animal := { sampleHerbivore with direction := AnimalDirection.East }

/-- Zero weight matrix of the decision engine (4 rows of 12). -/
def zeroWeights : List (List ℚ) := List.replicate 4 (List.replicate 12 0)

/-- A bias vector whose only positive score is the first. -/
def biasOneScore : List ℚ := [1, 0, 0, 0]

/-- The all-zero perception vector. -/
def zeroInputs : List ℚ := List.replicate 12 0

/-- A one-by-one world configuration. -/
def cfg1 : Config :=
  { width := 1, height := 1, max_plants := 1, max_herbivore := 1,
    max_carnivore := 1, plant_grow_energy := 5 }

/-- The one-by-one configuration with a herbivore ceiling of two. -/
def cfg1b : Config := { cfg1 with max_herbivore := 2 }

/-- A one-by-one configuration with all ceilings zero. -/
def cfg0 : Config := { cfg1 with max_plants := 0, max_herbivore := 0, max_carnivore := 0 }

/-- A two-by-two world configuration. -/
def cfg2 : Config :=
  { width := 2, height := 2, max_plants := 4, max_herbivore := 4,
    max_carnivore := 4, plant_grow_energy := 5 }

/-- A one-by-one landscape whose only cell holds the dead, already
processed herbivore with index 0. -/
def LDead : Landscape :=
  { animals := [deadProcessedAnimal]
    plants := []
    dead_animals := []
    grid := fun x y => if x = 0 ∧ y = 0 then ⟨none, some 0⟩ else ⟨none, none⟩
    plant_count := 0
    animal_count := (1, 0)
    best_animal := (none, none)
    best_death_animal := (none, none)
    animal_reproductions := (0, 0)
    animal_deaths := (0, 0)
    animal_max_generation := (0, 0)
    view_state := []
    panicked := false
    invocations := fun _ => 0 }

/-- The trivial oracle for a one-by-one world: identity permutations and
a brain always answering None. -/
def oracle1 : Oracle :=
  { shufW := [0], shufH := [0]
    brain := fun _ _ => AnimalAction.None
    shufArea := fun _ _ l => l }

/-- A two-by-two landscape with the East-facing herbivore 0 at cell
(0, 0) and the carnivore 1 at cell (1, 0): the move destination of
animal 0 is occupied. -/
def LTwoAnimals : Landscape :=
  { LDead with
    animals := [sampleEastHerb, sampleCarnivore]
    grid := fun x y =>
      if x = 0 ∧ y = 0 then ⟨none, some 0⟩
      else if x = 1 ∧ y = 0 then ⟨none, some 1⟩
      else ⟨none, none⟩
    animal_count := (1, 1) }

/-- A two-by-two landscape with only the East-facing herbivore 0 at cell
(0, 0): the move destination of animal 0 is free. -/
def LOneAnimal : Landscape :=
  { LDead with
    animals := [sampleEastHerb]
    grid := fun x y => if x = 0 ∧ y = 0 then ⟨none, some 0⟩ else ⟨none, none⟩ }

/-- The turn action only changes the direction besides its fixed energy
cost. -/
theorem turn_action_energy (a : Animal) (b : Bool) :
    (a.turn_action b).energy = a.energy - TURN_ACTION_ENERGY_RATE * a.live_energy := by
  unfold Animal.turn_action
  cases h : a.direction <;> simp

/-- Energy after eating is the clamped sum of old energy, cost and
gain. -/
theorem eat_action_energy (a : Animal) (e : Energy) :
    (a.eat_action e).energy =
      min (a.energy - EAT_ACTION_ENERGY_RATE * a.live_energy + e) a.max_energy := by
  unfold Animal.eat_action
  dsimp only
  split
  · rename_i h
    exact (min_eq_right h.le).symm
  · rename_i h
    exact (min_eq_left (not_lt.mp h)).symm

/-- Energy after growing is the clamped sum. -/
theorem grow_action_energy (p : Plant) (e : Energy) :
    (p.grow_action e).energy = min (p.energy + e) p.max_energy := by
  unfold Plant.grow_action
  dsimp only
  split
  · rename_i h
    exact (min_eq_right h.le).symm
  · rename_i h
    exact (min_eq_left (not_lt.mp h)).symm

/-- No agent operation changes the max energy field. -/
theorem max_energy_stable (a : Animal) (p : Plant) (b r : Bool) (e : Energy) :
    (a.turn_action b).max_energy = a.max_energy ∧
    (a.move_action r).max_energy = a.max_energy ∧
    (a.eat_action e).max_energy = a.max_energy ∧
    a.reproduce_action.1.max_energy = a.max_energy ∧
    a.reproduce_action.2.max_energy = a.max_energy ∧
    a.inactivity_action.max_energy = a.max_energy ∧
    a.be_eaten.2.max_energy = a.max_energy ∧
    (p.grow_action e).max_energy = p.max_energy ∧
    p.be_eaten.2.max_energy = p.max_energy := by
  refine ⟨?_, rfl, ?_, rfl, rfl, rfl, ?_, ?_, ?_⟩
  · unfold Animal.turn_action
    cases h : a.direction <;> simp
  · unfold Animal.eat_action
    dsimp only
    split <;> rfl
  · unfold Animal.be_eaten
    split <;> rfl
  · unfold Plant.grow_action
    dsimp only
    split <;> rfl
  · unfold Plant.be_eaten
    split <;> rfl

/-- C1: evaluation of the source be_eaten of a plant at the failing
inputs.  With energy 5 and eaten_energy 10 the code releases 10 and
leaves energy -5, where the claim requires releasing min(10, 5) = 5 and
ending at energy max(0, 5 - 10) = 0; with energy 10 and eaten_energy 3
the code releases the whole 10 and zeroes the plant, where the claim
requires releasing 3 and ending at 7.  The comparison in be_eaten
selects the two branches the wrong way round. -/
theorem C1_plant_be_eaten_evaluation :
    (Plant.be_eaten ⟨5, 20, 10, 1/2, true⟩).1 = 10 ∧
    (Plant.be_eaten ⟨5, 20, 10, 1/2, true⟩).2.energy = -5 ∧
    ¬((Plant.be_eaten ⟨5, 20, 10, 1/2, true⟩).1 = min 10 5 ∧
      (Plant.be_eaten ⟨5, 20, 10, 1/2, true⟩).2.energy = max 0 (5 - 10)) ∧
    (Plant.be_eaten ⟨10, 20, 3, 1/2, true⟩).1 = 10 ∧
    (Plant.be_eaten ⟨10, 20, 3, 1/2, true⟩).2.energy = 0 ∧
    ¬((Plant.be_eaten ⟨10, 20, 3, 1/2, true⟩).1 = min 3 10 ∧
      (Plant.be_eaten ⟨10, 20, 3, 1/2, true⟩).2.energy = max 0 (10 - 3)) := by
  norm_num [Plant.be_eaten]

/-- C2, counterexample: an animal satisfying the energy invariant whose
energy is strictly negative after the inactivity action, refuting the
claimed lower bound 0 at a concrete input. -/
theorem C2_energy_invariant_cex :
    (0 ≤ lowEnergyAnimal.energy ∧ lowEnergyAnimal.energy ≤ lowEnergyAnimal.max_energy) ∧
    lowEnergyAnimal.inactivity_action.energy < 0 := by
  norm_num [lowEnergyAnimal, sampleHerbivore, Animal.inactivity_action,
    NONE_ACTION_ENERGY_RATE]

/-- C2, amended: under non-negative cost parameters, every
energy-modifying agent operation preserves the upper bound
energy at most max_energy (and hands a child at most its max), while
the lower bound 0 of the claim does not hold (see the counterexample). -/
theorem C2_energy_upper_bound (a : Animal) (p : Plant)
    (hl : 0 ≤ a.live_energy) (hb : 0 ≤ a.birth_energy)
    (hbM : a.birth_energy ≤ a.max_energy) (hM : 0 ≤ a.max_energy)
    (ha : a.energy ≤ a.max_energy)
    (hpe : 0 ≤ p.eaten_energy) (hpM : 0 ≤ p.max_energy)
    (hp : p.energy ≤ p.max_energy) :
    (∀ b, (a.turn_action b).energy ≤ a.max_energy) ∧
    (∀ r, (a.move_action r).energy ≤ a.max_energy) ∧
    (∀ e, (a.eat_action e).energy ≤ a.max_energy) ∧
    a.reproduce_action.1.energy ≤ a.max_energy ∧
    a.reproduce_action.2.energy ≤ a.reproduce_action.2.max_energy ∧
    a.inactivity_action.energy ≤ a.max_energy ∧
    a.be_eaten.2.energy ≤ a.be_eaten.2.max_energy ∧
    (∀ e, (p.grow_action e).energy ≤ p.max_energy) ∧
    p.be_eaten.2.energy ≤ p.be_eaten.2.max_energy := by
  have hrate : TURN_ACTION_ENERGY_RATE = 1 := rfl
  refine ⟨?_, ?_, ?_, ?_, ?_, ?_, ?_, ?_, ?_⟩
  · intro b
    rw [turn_action_energy, hrate]
    linarith
  · intro r
    unfold Animal.move_action MOVE_ACTION_ENERGY_RATE
    dsimp only
    linarith
  · intro e
    rw [eat_action_energy]
    exact min_le_right _ _
  · unfold Animal.reproduce_action REPRODUCE_ACTION_ENERGY_RATE
    dsimp only
    linarith
  · unfold Animal.reproduce_action
    dsimp only
    exact hbM
  · unfold Animal.inactivity_action NONE_ACTION_ENERGY_RATE
    dsimp only
    linarith
  · unfold Animal.be_eaten
    split
    · dsimp only
      exact hM
    · dsimp only
      exact ha
  · intro e
    rw [grow_action_energy]
    exact min_le_right _ _
  · unfold Plant.be_eaten
    split
    · dsimp only
      linarith
    · dsimp only
      exact hpM

/-- C2, witness: the amended upper bound evaluated at the sample
herbivore and the sample plant. -/
theorem C2_energy_upper_bound_witness :
    (sampleHerbivore.turn_action true).energy ≤ sampleHerbivore.max_energy ∧
    (sampleHerbivore.eat_action 100).energy ≤ sampleHerbivore.max_energy ∧
    samplePlant.be_eaten.2.energy ≤ samplePlant.be_eaten.2.max_energy :=
  have h := C2_energy_upper_bound sampleHerbivore samplePlant (by decide) (by decide)
    (by decide) (by decide) (by decide) (by decide) (by decide) (by decide)
  ⟨h.1 true, h.2.2.1 100, h.2.2.2.2.2.2.2.2⟩

/-- C3: be_eaten on a herbivore releases exactly eaten_energy_rate times
its current energy, zeroes it and marks it eaten (also marking it
processed); on a carnivore it releases 0 and leaves the state unchanged;
and eat_action adds the gained energy after deducting the eating cost,
clamped to max_energy. -/
theorem C3_be_eaten_transfer (a b : Animal) :
    (a.animal_type = AnimaType.Herbivore →
      a.be_eaten = (a.eaten_energy_rate * a.energy,
        { a with energy := 0, is_eaten := true, processed := true })) ∧
    (a.animal_type = AnimaType.Carnivore → a.be_eaten = (0, a)) ∧
    (∀ g, (b.eat_action g).energy =
      min (b.energy - EAT_ACTION_ENERGY_RATE * b.live_energy + g) b.max_energy) ∧
    (∀ g, (b.eat_action g).energy ≤ b.max_energy) := by
  refine ⟨?_, ?_, fun g => eat_action_energy b g, fun g => ?_⟩
  · intro h
    unfold Animal.be_eaten
    rw [h]
    simp
  · intro h
    unfold Animal.be_eaten
    rw [h]
    simp
  · rw [eat_action_energy]
    exact min_le_right _ _

/-- C3, witness: the transfer equations evaluated at the sample
herbivore and the sample carnivore. -/
theorem C3_be_eaten_transfer_witness :
    sampleHerbivore.be_eaten =
      (3/2, { sampleHerbivore with energy := 0, is_eaten := true, processed := true }) ∧
    sampleCarnivore.be_eaten = (0, sampleCarnivore) ∧
    (sampleCarnivore.eat_action 7).energy =
      min (sampleCarnivore.energy - EAT_ACTION_ENERGY_RATE * sampleCarnivore.live_energy + 7)
        sampleCarnivore.max_energy := by
  refine ⟨?_, ?_, ?_⟩
  · have h := (C3_be_eaten_transfer sampleHerbivore sampleCarnivore).1 rfl
    rw [h]
    simp only [Prod.mk.injEq]
    norm_num [sampleHerbivore]
  · exact (C3_be_eaten_transfer sampleCarnivore sampleCarnivore).2.1 rfl
  · exact (C3_be_eaten_transfer sampleCarnivore sampleCarnivore).2.2.1 7

/-- C6: evaluation of the sixteen offset tables.  Each South table is
the elementwise point reflection of the North table of the same kind,
but each East table is a verbatim copy of the corresponding West table
rather than its point reflection; for the front kind even the set of
reflected offsets differs, witnessed by the offset (-2, 2). -/
theorem C6_offset_tables_evaluation :
    SOUTH_FRONT = NORTH_FRONT.map pointReflect ∧
    SOUTH_LEFT = NORTH_LEFT.map pointReflect ∧
    SOUTH_RIGHT = NORTH_RIGHT.map pointReflect ∧
    SOUTH_PROXIMITY = NORTH_PROXIMITY.map pointReflect ∧
    EAST_FRONT = WEST_FRONT ∧
    EAST_LEFT = WEST_LEFT ∧
    EAST_RIGHT = WEST_RIGHT ∧
    EAST_PROXIMITY = WEST_PROXIMITY ∧
    EAST_FRONT ≠ WEST_FRONT.map pointReflect ∧
    EAST_LEFT ≠ WEST_LEFT.map pointReflect ∧
    EAST_RIGHT ≠ WEST_RIGHT.map pointReflect ∧
    EAST_PROXIMITY ≠ WEST_PROXIMITY.map pointReflect ∧
    ((-2, 2) ∈ EAST_FRONT ∧ ((-2 : ℤ), (2 : ℤ)) ∉ WEST_FRONT.map pointReflect) := by
  decide

/-- An output index below four encodes a real action, never None. -/
theorem action_of_out_ne_none (i : ℕ) (h : i < 4) :
    action_of_out i ≠ AnimalAction.None := by
  interval_cases i <;> decide

/-- Every pair selected by the first loop has a strictly positive
score. -/
theorem positive_outs_pos (actions : List ℚ) :
    ∀ p ∈ positive_outs actions, 0 < p.2 := by
  intro p hp
  have := (List.mem_filter.mp hp).2
  simpa using this

/-- Every index selected by the first loop is an index into the score
vector. -/
theorem positive_outs_lt (actions : List ℚ) :
    ∀ p ∈ positive_outs actions, p.1 < actions.length := by
  intro p hp
  have hmem := (List.mem_filter.mp hp).1
  have := List.mem_enumFrom hmem
  omega

/-- When the draw is at least the whole remaining mass, the selection
loop falls off the end and panics. -/
theorem choose_loop_panic (pairs : List (ℕ × ℚ)) (choose : ℚ)
    (hpos : ∀ p ∈ pairs, 0 < p.2) :
    ∀ x1, x1 + (pairs.map Prod.snd).sum ≤ choose →
      choose_loop pairs choose x1 = ChooseOutcome.panicked := by
  induction pairs with
  | nil => intro x1 h; rfl
  | cons hd tl ih =>
      intro x1 h
      obtain ⟨o, v⟩ := hd
      have htl : 0 ≤ (tl.map Prod.snd).sum := by
        apply List.sum_nonneg
        intro q hq
        obtain ⟨p, hp, rfl⟩ := List.mem_map.mp hq
        exact (hpos p (List.mem_cons_of_mem _ hp)).le
      have hsum : x1 + (v + (tl.map Prod.snd).sum) ≤ choose := by
        simpa using h
      have hcond : ¬(choose ≥ x1 ∧ choose < x1 + v) := by
        rintro ⟨h1, h2⟩
        linarith
      unfold choose_loop
      rw [if_neg hcond]
      exact ih (fun p hp => hpos p (List.mem_cons_of_mem _ hp)) (x1 + v) (by linarith)

/-- When the draw lies strictly inside the remaining mass, the selection
loop returns the first index whose cumulative sum exceeds the draw. -/
theorem choose_loop_ret (pairs : List (ℕ × ℚ)) (choose : ℚ)
    (hpos : ∀ p ∈ pairs, 0 < p.2) :
    ∀ x1, x1 ≤ choose → choose < x1 + (pairs.map Prod.snd).sum →
      ∃ i v, (i, v) ∈ pairs ∧ first_exceed pairs choose x1 = some i ∧
        choose_loop pairs choose x1 = ChooseOutcome.ret (action_of_out i) := by
  induction pairs with
  | nil =>
      intro x1 hge hlt
      simp at hlt
      linarith
  | cons hd tl ih =>
      intro x1 hge hlt
      obtain ⟨o, v⟩ := hd
      by_cases hv : choose < x1 + v
      · refine ⟨o, v, List.mem_cons_self _ _, ?_, ?_⟩
        · unfold first_exceed
          rw [if_pos hv]
        · unfold choose_loop
          rw [if_pos ⟨hge, hv⟩]
      · have hge' : x1 + v ≤ choose := not_lt.mp hv
        have hlt' : choose < (x1 + v) + (tl.map Prod.snd).sum := by
          have : choose < x1 + (v + (tl.map Prod.snd).sum) := by simpa using hlt
          linarith
        obtain ⟨i, w, hmem, hfe, hcl⟩ :=
          ih (fun p hp => hpos p (List.mem_cons_of_mem _ hp)) (x1 + v) hge' hlt'
        have hcond : ¬(choose ≥ x1 ∧ choose < x1 + v) := fun hc => hv hc.2
        refine ⟨i, w, List.mem_cons_of_mem _ hmem, ?_, ?_⟩
        · unfold first_exceed
          rw [if_neg hv]
          exact hfe
        · unfold choose_loop
          rw [if_neg hcond]
          exact hcl

/-- C7, amended: the engine answers None exactly when no output score is
positive; for a draw in the half-open interval from 0 to the sum of the
positive scores the selection returns the action of the first
positive-score index whose cumulative sum exceeds the draw, which is
never None; but a draw exactly equal to the sum, which the inclusive
sampling range of the source permits, reaches the unreachable-branch
panic. -/
theorem C7_choose_action_amended (actions : List ℚ) (choose : ℚ)
    (h4 : actions.length = 4) :
    (positive_outs actions = [] →
      choose_action actions choose = ChooseOutcome.ret AnimalAction.None) ∧
    (positive_outs actions ≠ [] → 0 ≤ choose → choose < total_of actions →
      ∃ i, first_exceed (positive_outs actions) choose 0 = some i ∧
        choose_action actions choose = ChooseOutcome.ret (action_of_out i) ∧
        action_of_out i ≠ AnimalAction.None) ∧
    (positive_outs actions ≠ [] →
      choose_action actions (total_of actions) = ChooseOutcome.panicked) ∧
    (0 ≤ choose → choose ≤ total_of actions →
      (choose_action actions choose = ChooseOutcome.ret AnimalAction.None ↔
        positive_outs actions = [])) := by
  have hpos := positive_outs_pos actions
  refine ⟨?_, ?_, ?_, ?_⟩
  · intro h
    unfold choose_action
    rw [if_pos h]
  · intro hne h0 hlt
    obtain ⟨i, v, hmem, hfe, hcl⟩ :=
      choose_loop_ret (positive_outs actions) choose hpos 0 h0 (by
        unfold total_of at hlt
        linarith)
    have hi : i < 4 := by
      have := positive_outs_lt actions (i, v) hmem
      omega
    refine ⟨i, hfe, ?_, action_of_out_ne_none i hi⟩
    unfold choose_action
    rw [if_neg hne]
    exact hcl
  · intro hne
    unfold choose_action
    rw [if_neg hne]
    exact choose_loop_panic (positive_outs actions) (total_of actions) hpos 0 (by
      unfold total_of
      linarith)
  · intro h0 hle
    constructor
    · intro hret
      by_contra hne
      rcases lt_or_eq_of_le hle with hlt | heq
      · obtain ⟨i, _, hcl, hnn⟩ :=
          (by
            obtain ⟨i, v, hmem, hfe, hcl⟩ :=
              choose_loop_ret (positive_outs actions) choose hpos 0 h0 (by
                unfold total_of at hlt
                linarith)
            have hi : i < 4 := by
              have := positive_outs_lt actions (i, v) hmem
              omega
            exact ⟨i, hfe, hcl, action_of_out_ne_none i hi⟩ :
            ∃ i, first_exceed (positive_outs actions) choose 0 = some i ∧
              choose_loop (positive_outs actions) choose 0 =
                ChooseOutcome.ret (action_of_out i) ∧
              action_of_out i ≠ AnimalAction.None)
        unfold choose_action at hret
        rw [if_neg hne] at hret
        rw [hcl] at hret
        exact hnn (ChooseOutcome.ret.inj hret)
      · unfold choose_action at hret
        rw [if_neg hne] at hret
        rw [heq] at hret
        have := choose_loop_panic (positive_outs actions) (total_of actions) hpos 0 (by
          unfold total_of
          linarith)
        rw [this] at hret
        exact ChooseOutcome.noConfusion hret
    · intro h
      unfold choose_action
      rw [if_pos h]

/-- C7, counterexample: with zero weights, bias (1, 0, 0, 0) and the
all-zero perception vector the only positive score is 1, the sum of the
positive scores is 1, the drawn value 1 lies in the closed interval the
source samples from, and the selection procedure panics instead of
yielding an action. -/
theorem C7_draw_at_total_cex :
    brain_choose zeroWeights biasOneScore zeroInputs 1 = ChooseOutcome.panicked ∧
    (0 : ℚ) ≤ 1 ∧ 1 ≤ total_of (brain_outputs zeroWeights biasOneScore zeroInputs) ∧
    positive_outs (brain_outputs zeroWeights biasOneScore zeroInputs) ≠ [] := by
  have houts : brain_outputs zeroWeights biasOneScore zeroInputs = [1, 0, 0, 0] := by
    norm_num [brain_outputs, zeroWeights, biasOneScore, zeroInputs, dot,
      List.replicate, List.zipWith]
  have hpo : positive_outs [(1 : ℚ), 0, 0, 0] = [(0, 1)] := by
    norm_num [positive_outs, List.enum, List.enumFrom, List.filter]
  refine ⟨?_, by norm_num, ?_, ?_⟩
  · unfold brain_choose
    rw [houts]
    unfold choose_action
    rw [hpo]
    norm_num [choose_loop]
  · rw [houts]
    unfold total_of
    rw [hpo]
    norm_num
  · rw [houts, hpo]
    simp

/-- C7, witness: the amended selection property evaluated at the score
vector (1, 0, 0, 0) with the draw one half. -/
theorem C7_choose_action_amended_witness :
    ∃ i, first_exceed (positive_outs [(1 : ℚ), 0, 0, 0]) (1/2) 0 = some i ∧
      choose_action [(1 : ℚ), 0, 0, 0] (1/2) = ChooseOutcome.ret (action_of_out i) ∧
      action_of_out i ≠ AnimalAction.None :=
  (C7_choose_action_amended [(1 : ℚ), 0, 0, 0] (1/2) (by norm_num)).2.1
    (by norm_num [positive_outs, List.enum, List.enumFrom, List.filter])
    (by norm_num)
    (by norm_num [total_of, positive_outs, List.enum, List.enumFrom, List.filter])

/-- Clipping an in-range coordinate is the identity. -/
theorem clip_of_lt (x n : ℕ) (h : x < n) : clip (x : ℤ) n = x := by
  unfold clip
  rw [if_neg (by omega), if_neg (by omega)]
  omega

/-- add_plant rejects an out-of-bounds coordinate without touching the
state. -/
theorem add_plant_out_of_bounds (cfg : Config) (L : Landscape) (x y : ℕ) (p : Plant)
    (h : x ≥ cfg.width ∨ y ≥ cfg.height) :
    add_plant cfg L x y p = (Except.error (AddAgentError.OutOfBounds x y), L) := by
  unfold add_plant
  rw [if_pos h]

/-- add_plant rejects an occupied plant slot without touching the
state. -/
theorem add_plant_taken (cfg : Config) (L : Landscape) (x y : ℕ) (p : Plant) (pid : ℕ)
    (hx : x < cfg.width) (hy : y < cfg.height)
    (hc : (L.grid x y).plant = some pid) :
    add_plant cfg L x y p = (Except.error (AddAgentError.TakenCell x y), L) := by
  unfold add_plant
  rw [if_neg (by omega)]
  dsimp only
  rw [clip_of_lt x _ hx, clip_of_lt y _ hy, hc]

/-- add_animal rejects an out-of-bounds coordinate without touching the
state. -/
theorem add_animal_out_of_bounds (cfg : Config) (L : Landscape) (x y : ℕ) (a : Animal)
    (h : x ≥ cfg.width ∨ y ≥ cfg.height) :
    add_animal cfg L x y a = (Except.error (AddAgentError.OutOfBounds x y), L) := by
  unfold add_animal
  rw [if_pos h]

/-- add_animal rejects an occupied animal slot without touching the
state. -/
theorem add_animal_taken (cfg : Config) (L : Landscape) (x y : ℕ) (a : Animal) (bid : ℕ)
    (hx : x < cfg.width) (hy : y < cfg.height)
    (hc : (L.grid x y).animal = some bid) :
    add_animal cfg L x y a = (Except.error (AddAgentError.TakenCell x y), L) := by
  unfold add_animal
  rw [if_neg (by omega)]
  dsimp only
  rw [clip_of_lt x _ hx, clip_of_lt y _ hy, hc]

/-- C10: whenever add_plant or add_animal returns an error the landscape
is entirely unchanged, an out-of-bounds coordinate yields OutOfBounds,
and an occupied slot at an in-bounds coordinate yields TakenCell. -/
theorem C10_add_agent_error_unchanged (cfg : Config) (L : Landscape) (x y : ℕ)
    (p : Plant) (a : Animal) :
    (∀ e, (add_plant cfg L x y p).1 = Except.error e → (add_plant cfg L x y p).2 = L) ∧
    (∀ e, (add_animal cfg L x y a).1 = Except.error e → (add_animal cfg L x y a).2 = L) ∧
    (x ≥ cfg.width ∨ y ≥ cfg.height →
      (add_plant cfg L x y p).1 = Except.error (AddAgentError.OutOfBounds x y) ∧
      (add_animal cfg L x y a).1 = Except.error (AddAgentError.OutOfBounds x y)) ∧
    (x < cfg.width → y < cfg.height → ∀ pid, (L.grid x y).plant = some pid →
      (add_plant cfg L x y p).1 = Except.error (AddAgentError.TakenCell x y)) ∧
    (x < cfg.width → y < cfg.height → ∀ bid, (L.grid x y).animal = some bid →
      (add_animal cfg L x y a).1 = Except.error (AddAgentError.TakenCell x y)) := by
  by_cases hb : x ≥ cfg.width ∨ y ≥ cfg.height
  · rw [add_plant_out_of_bounds cfg L x y p hb, add_animal_out_of_bounds cfg L x y a hb]
    exact ⟨fun e _ => rfl, fun e _ => rfl, fun _ => ⟨rfl, rfl⟩,
      fun hx _ _ _ => absurd hb (by omega), fun hx _ _ _ => absurd hb (by omega)⟩
  · have hx : x < cfg.width := by omega
    have hy : y < cfg.height := by omega
    refine ⟨?_, ?_, fun h => absurd h hb, ?_, ?_⟩
    · intro e he
      cases hc : (L.grid x y).plant with
      | some pid => rw [add_plant_taken cfg L x y p pid hx hy hc]
      | none =>
          exfalso
          unfold add_plant at he
          rw [if_neg hb] at he
          dsimp only at he
          rw [clip_of_lt x _ hx, clip_of_lt y _ hy, hc] at he
          exact Except.noConfusion he
    · intro e he
      cases hc : (L.grid x y).animal with
      | some bid => rw [add_animal_taken cfg L x y a bid hx hy hc]
      | none =>
          exfalso
          unfold add_animal at he
          rw [if_neg hb] at he
          dsimp only at he
          rw [clip_of_lt x _ hx, clip_of_lt y _ hy, hc] at he
          exact Except.noConfusion he
    · intro _ _ pid hc
      rw [add_plant_taken cfg L x y p pid hx hy hc]
    · intro _ _ bid hc
      rw [add_animal_taken cfg L x y a bid hx hy hc]

/-- C10, witness: the error cases evaluated on the concrete one-by-one
landscape holding one animal. -/
theorem C10_add_agent_error_unchanged_witness :
    (add_plant cfg1 LDead 5 0 samplePlant).1 =
      Except.error (AddAgentError.OutOfBounds 5 0) ∧
    (add_animal cfg1 LDead 0 0 sampleHerbivore).1 =
      Except.error (AddAgentError.TakenCell 0 0) ∧
    (add_animal cfg1 LDead 0 0 sampleHerbivore).2 = LDead := by
  have h1 := C10_add_agent_error_unchanged cfg1 LDead 5 0 samplePlant sampleHerbivore
  have h2 := C10_add_agent_error_unchanged cfg1 LDead 0 0 samplePlant sampleHerbivore
  have hb : (5 : ℕ) ≥ cfg1.width ∨ (0 : ℕ) ≥ cfg1.height := by
    left
    norm_num [cfg1]
  have hcell : (LDead.grid 0 0).animal = some 0 := rfl
  have htaken := h2.2.2.2.2 (by norm_num [cfg1]) (by norm_num [cfg1]) 0 hcell
  exact ⟨(h1.2.2.1 hb).1, htaken, h2.2.1 _ htaken⟩

/-- An exhausted column scan returns none. -/
theorem first_free_in_col_none (p : ℕ → ℕ → Bool) (x : ℕ) (ys : List ℕ)
    (h : ∀ y ∈ ys, p x y = false) : first_free_in_col p x ys = none := by
  induction ys with
  | nil => rfl
  | cons y ys ih =>
      unfold first_free_in_col
      rw [if_neg (by simp [h y (List.mem_cons_self y ys)])]
      exact ih fun z hz => h z (List.mem_cons_of_mem _ hz)

/-- An exhausted grid scan returns none. -/
theorem first_free_none (p : ℕ → ℕ → Bool) (xs ys : List ℕ)
    (h : ∀ x ∈ xs, ∀ y ∈ ys, p x y = false) : first_free p xs ys = none := by
  induction xs with
  | nil => rfl
  | cons x xs ih =>
      unfold first_free
      rw [first_free_in_col_none p x ys (h x (List.mem_cons_self x xs))]
      exact ih fun z hz => h z (List.mem_cons_of_mem _ hz)

/-- C9: a reproduction attempt at a reached population ceiling and a
plant reproduction with no empty plant cell are soft failures: the spot
search returns the distinguishable recoverable value and the reproducing
actions leave the state entirely unchanged (counters included); whereas
an exhausted placement scan for an animal below its ceiling is the
panic. -/
theorem C9_reproduction_failure_modes (cfg : Config) (sw sh : List ℕ) (L : Landscape) :
    (L.plant_count ≥ cfg.max_plants →
      find_empty_spot cfg sw sh L AgentType.Plant = SpotOutcome.recoverable) ∧
    (L.animal_count.1 ≥ cfg.max_herbivore →
      find_empty_spot cfg sw sh L AgentType.Herbivore = SpotOutcome.recoverable) ∧
    (L.animal_count.2 ≥ cfg.max_carnivore →
      find_empty_spot cfg sw sh L AgentType.Carnivore = SpotOutcome.recoverable) ∧
    (L.plant_count < cfg.max_plants →
      (∀ x ∈ sw, ∀ y ∈ sh, (L.grid x y).plant ≠ none) →
      find_empty_spot cfg sw sh L AgentType.Plant = SpotOutcome.recoverable) ∧
    (L.animal_count.1 < cfg.max_herbivore →
      (∀ x ∈ sw, ∀ y ∈ sh, (L.grid x y).animal ≠ none) →
      find_empty_spot cfg sw sh L AgentType.Herbivore = SpotOutcome.panicked) ∧
    (L.animal_count.2 < cfg.max_carnivore →
      (∀ x ∈ sw, ∀ y ∈ sh, (L.grid x y).animal ≠ none) →
      find_empty_spot cfg sw sh L AgentType.Carnivore = SpotOutcome.panicked) ∧
    (∀ aid a, L.animals.get? aid = some a →
      find_empty_spot cfg sw sh L
        (if a.animal_type = AnimaType.Herbivore then AgentType.Herbivore
         else AgentType.Carnivore) = SpotOutcome.recoverable →
      reproduce_animal_action cfg sw sh L aid = L) ∧
    (∀ pid p, L.plants.get? pid = some p → p.action = PlantAction.Reproduce →
      find_empty_spot cfg sw sh L AgentType.Plant = SpotOutcome.recoverable →
      simulate_plant cfg sw sh L pid = L) := by
  refine ⟨?_, ?_, ?_, ?_, ?_, ?_, ?_, ?_⟩
  · intro h
    unfold find_empty_spot
    rw [if_pos (by simpa using h)]
  · intro h
    unfold find_empty_spot
    rw [if_pos (by simpa using h)]
  · intro h
    unfold find_empty_spot
    rw [if_pos (by simpa using h)]
  · intro h hfull
    unfold find_empty_spot
    rw [if_neg (by simpa using Nat.not_le.mpr h)]
    dsimp only
    rw [first_free_none _ sw sh (by
      intro x hx y hy
      simpa using hfull x hx y hy)]
  · intro h hfull
    unfold find_empty_spot
    rw [if_neg (by simpa using Nat.not_le.mpr h)]
    dsimp only
    rw [first_free_none _ sw sh (by
      intro x hx y hy
      simpa using hfull x hx y hy)]
  · intro h hfull
    unfold find_empty_spot
    rw [if_neg (by simpa using Nat.not_le.mpr h)]
    dsimp only
    rw [first_free_none _ sw sh (by
      intro x hx y hy
      simpa using hfull x hx y hy)]
  · intro aid a hga hfind
    unfold reproduce_animal_action
    rw [hga]
    dsimp only
    rw [hfind]
  · intro pid p hgp hact hfind
    unfold simulate_plant
    rw [hgp]
    dsimp only
    rw [hact, hfind]

/-- C9, witness: the failure modes evaluated on concrete one-by-one
landscapes, including the animal-scan panic and the silently skipped
reproduction. -/
theorem C9_reproduction_failure_modes_witness :
    find_empty_spot cfg0 [0] [0] LDead AgentType.Plant = SpotOutcome.recoverable ∧
    find_empty_spot cfg1b [0] [0] LDead AgentType.Herbivore = SpotOutcome.panicked ∧
    reproduce_animal_action cfg0 [0] [0] LDead 0 = LDead := by
  have h0 := C9_reproduction_failure_modes cfg0 [0] [0] LDead
  have h1 := C9_reproduction_failure_modes cfg1b [0] [0] LDead
  refine ⟨h0.1 (by norm_num [cfg0, cfg1, LDead]), ?_, ?_⟩
  · exact h1.2.2.2.2.1 (by norm_num [cfg1b, cfg1, LDead])
      (by
        intro x hx y hy
        simp only [List.mem_singleton] at hx hy
        subst hx
        subst hy
        simp [LDead])
  · refine h0.2.2.2.2.2.2.1 0 deadProcessedAnimal rfl ?_
    have : (if deadProcessedAnimal.animal_type = AnimaType.Herbivore then
        AgentType.Herbivore else AgentType.Carnivore) = AgentType.Herbivore := rfl
    rw [this]
    exact h0.2.1 (by norm_num [cfg0, cfg1, LDead])

/-- Reading the modified index gives the image of the old element. -/
theorem listModify_get_self {α : Type} (l : List α) (i : ℕ) (f : α → α) :
    (listModify l i f).get? i = (l.get? i).map f := by
  induction l generalizing i with
  | nil => cases i <;> rfl
  | cons a t ih =>
      cases i with
      | zero => rfl
      | succ j => exact ih j

/-- Reading any other index is unchanged by the modification. -/
theorem listModify_get_other {α : Type} (l : List α) (i j : ℕ) (f : α → α)
    (h : j ≠ i) : (listModify l i f).get? j = l.get? j := by
  induction l generalizing i j with
  | nil => cases i <;> rfl
  | cons a t ih =>
      cases i with
      | zero =>
          cases j with
          | zero => exact absurd rfl h
          | succ k => rfl
      | succ i' =>
          cases j with
          | zero => rfl
          | succ k => exact ih i' k (by omega)

/-- Modification never changes the length. -/
theorem listModify_length {α : Type} (l : List α) (i : ℕ) (f : α → α) :
    (listModify l i f).length = l.length := by
  induction l generalizing i with
  | nil => cases i <;> rfl
  | cons a t ih =>
      cases i with
      | zero => rfl
      | succ j =>
          show (a :: listModify t j f).length = t.length + 1
          simp [ih j]

/-- Updating an animal changes neither the grid nor anything else
outside the animals collection. -/
theorem modifyAnimal_grid (L : Landscape) (i : ℕ) (f : Animal → Animal) :
    (modifyAnimal L i f).grid = L.grid := rfl

/-- The animals collection after an in-place update. -/
theorem modifyAnimal_animals (L : Landscape) (i : ℕ) (f : Animal → Animal) :
    (modifyAnimal L i f).animals = listModify L.animals i f := rfl

/-- Writing a cell's animal slot leaves the animals collection alone. -/
theorem setCellAnimal_animals (L : Landscape) (x y : ℕ) (v : Option ℕ) :
    (setCellAnimal L x y v).animals = L.animals := rfl

/-- Reading the grid after writing one animal slot. -/
theorem setCellAnimal_grid (L : Landscape) (x y : ℕ) (v : Option ℕ) (p q : ℕ) :
    (setCellAnimal L x y v).grid p q =
      if p = x ∧ q = y then { L.grid p q with animal := v } else L.grid p q := rfl

/-- C4: resolving a Move.  The destination d is one step in the facing
direction with toroidal wrap; when the destination animal slot is taken
the whole grid is unchanged (the animal stays) yet the moving animal
still pays the movement cost; when it is free the occupancy index moves
to d, the source slot is cleared, all other cells are untouched, and the
same movement cost is paid.  The first conjunct records that the cost is
charged by move_action independent of success. -/
theorem C4_movement_resolution (cfg : Config) (L : Landscape) (aid x y : ℕ)
    (a : Animal) (d : ℕ × ℕ)
    (hga : L.animals.get? aid = some a)
    (hcell : (L.grid x y).animal = some aid)
    (hd : d = move_dest cfg a.direction x y) :
    (∀ r, (a.move_action r).energy =
      a.energy - MOVE_ACTION_ENERGY_RATE * a.live_energy) ∧
    ((∃ bid, (L.grid d.1 d.2).animal = some bid) →
      (∀ p q, (movement_animal_action cfg L aid x y).grid p q = L.grid p q) ∧
      (movement_animal_action cfg L aid x y).animals.get? aid =
        some (a.move_action false)) ∧
    ((L.grid d.1 d.2).animal = none →
      ((movement_animal_action cfg L aid x y).grid d.1 d.2).animal = some aid ∧
      ((movement_animal_action cfg L aid x y).grid x y).animal = none ∧
      (∀ p q, ¬(p = x ∧ q = y) → ¬(p = d.1 ∧ q = d.2) →
        (movement_animal_action cfg L aid x y).grid p q = L.grid p q) ∧
      (movement_animal_action cfg L aid x y).animals.get? aid =
        some (a.move_action true)) := by
  refine ⟨fun r => rfl, ?_, ?_⟩
  · rintro ⟨bid, hocc⟩
    unfold movement_animal_action
    rw [hga]
    dsimp only
    rw [← hd, hocc]
    dsimp only
    constructor
    · intro p q
      rfl
    · rw [modifyAnimal_animals, listModify_get_self, hga]
      rfl
  · intro hfree
    have hne : ¬(d.1 = x ∧ d.2 = y) := by
      rintro ⟨h1, h2⟩
      rw [h1, h2, hcell] at hfree
      exact Option.noConfusion hfree
    unfold movement_animal_action
    rw [hga]
    dsimp only
    rw [← hd, hfree]
    dsimp only
    refine ⟨?_, ?_, ?_, ?_⟩
    · rw [modifyAnimal_grid, setCellAnimal_grid, if_neg hne, setCellAnimal_grid,
        if_pos ⟨rfl, rfl⟩]
      exact hcell
    · rw [modifyAnimal_grid, setCellAnimal_grid, if_pos ⟨rfl, rfl⟩]
    · intro p q hpq hpd
      rw [modifyAnimal_grid, setCellAnimal_grid, if_neg hpq, setCellAnimal_grid,
        if_neg hpd]
    · rw [modifyAnimal_animals, setCellAnimal_animals, setCellAnimal_animals,
        listModify_get_self, hga]
      rfl

/-- C4, witness: on a two-by-two grid, animal 0 facing East at (0, 0)
fails to move onto the occupied (1, 0) while paying the cost, and on the
same grid with (1, 0) free it moves there, clearing (0, 0). -/
theorem C4_movement_resolution_witness :
    (movement_animal_action cfg2 LTwoAnimals 0 0 0).grid 1 0 = LTwoAnimals.grid 1 0 ∧
    (movement_animal_action cfg2 LTwoAnimals 0 0 0).animals.get? 0 =
      some (sampleEastHerb.move_action false) ∧
    ((movement_animal_action cfg2 LOneAnimal 0 0 0).grid 1 0).animal = some 0 ∧
    ((movement_animal_action cfg2 LOneAnimal 0 0 0).grid 0 0).animal = none ∧
    (movement_animal_action cfg2 LOneAnimal 0 0 0).animals.get? 0 =
      some (sampleEastHerb.move_action true) := by
  have hocc := C4_movement_resolution cfg2 LTwoAnimals 0 0 0 sampleEastHerb (1, 0)
    rfl rfl (by decide)
  have hfree := C4_movement_resolution cfg2 LOneAnimal 0 0 0 sampleEastHerb (1, 0)
    rfl rfl (by decide)
  have h2 := hocc.2.1 ⟨1, rfl⟩
  have h3 := hfree.2.2 rfl
  exact ⟨h2.1 1 0, h2.2, h3.1, h3.2.1, h3.2.2.2⟩

/-- Sending a dead animal to heaven clears its cell, appends its index
to the deceased collection, and does not touch the owning animals
collection at all. -/
theorem send_to_heaven_facts (L : Landscape) (aid x y : ℕ) :
    ((send_to_heaven L aid x y).grid x y).animal = none ∧
    (send_to_heaven L aid x y).dead_animals = L.dead_animals ++ [aid] ∧
    (send_to_heaven L aid x y).animals = L.animals ∧
    (send_to_heaven L aid x y).invocations = L.invocations := by
  unfold send_to_heaven
  dsimp only
  repeat' split
  all_goals simp [setCellAnimal_grid, setCellAnimal_animals, setCellAnimal]

/-- The cells other than the cleared one are untouched by
send_to_heaven. -/
theorem send_to_heaven_grid_other (L : Landscape) (aid x y p q : ℕ)
    (h : ¬(p = x ∧ q = y)) :
    (send_to_heaven L aid x y).grid p q = L.grid p q := by
  unfold send_to_heaven
  dsimp only
  repeat' split
  all_goals simp [setCellAnimal_grid, h]

/-- SubState is reflexive. -/
theorem substate_refl (L : Landscape) : SubState L L := ⟨le_refl _, fun _ h => h⟩

/-- SubState is transitive. -/
theorem substate_trans {L1 L2 L3 : Landscape} (h1 : SubState L1 L2)
    (h2 : SubState L2 L3) : SubState L1 L3 :=
  ⟨le_trans h1.1 h2.1, fun i hi => h2.2 i (h1.2 i hi)⟩

/-- A state with the same animals and deceased lists is a SubState. -/
theorem substate_of_eq {L L' : Landscape} (ha : L'.animals = L.animals)
    (hd : L'.dead_animals = L.dead_animals) : SubState L L' := by
  constructor
  · rw [ha]
  · rw [hd]
    exact fun _ h => h

/-- add_plant never touches the animals collection. -/
theorem add_plant_animals (cfg : Config) (L : Landscape) (x y : ℕ) (p : Plant) :
    (add_plant cfg L x y p).2.animals = L.animals := by
  unfold add_plant
  dsimp only
  repeat' split
  all_goals simp [setCellPlant]

/-- add_plant never touches the deceased collection. -/
theorem add_plant_dead (cfg : Config) (L : Landscape) (x y : ℕ) (p : Plant) :
    (add_plant cfg L x y p).2.dead_animals = L.dead_animals := by
  unfold add_plant
  dsimp only
  repeat' split
  all_goals simp [setCellPlant]

/-- add_plant never touches the ghost counters. -/
theorem add_plant_invocations (cfg : Config) (L : Landscape) (x y : ℕ) (p : Plant) :
    (add_plant cfg L x y p).2.invocations = L.invocations := by
  unfold add_plant
  dsimp only
  repeat' split
  all_goals simp [setCellPlant]

/-- simulate_plant never touches the animals or the deceased
collections nor the ghost counters. -/
theorem simulate_plant_substate (cfg : Config) (sw sh : List ℕ) (L : Landscape)
    (pid : ℕ) :
    (simulate_plant cfg sw sh L pid).animals = L.animals ∧
    (simulate_plant cfg sw sh L pid).dead_animals = L.dead_animals ∧
    (simulate_plant cfg sw sh L pid).invocations = L.invocations := by
  refine ⟨?_, ?_, ?_⟩ <;>
    · unfold simulate_plant
      cases hgp : L.plants.get? pid with
      | none => rfl
      | some p =>
          dsimp only
          cases hact : p.action with
          | None => rfl
          | Grow => simp [modifyPlant]
          | Reproduce =>
              dsimp only
              cases hspot : find_empty_spot cfg sw sh L AgentType.Plant with
              | recoverable => rfl
              | panicked => rfl
              | found cx cy =>
                  dsimp only
                  cases hr : (add_plant cfg L cx cy p.reproduce_action).1 <;>
                    simp [add_plant_animals, add_plant_dead, add_plant_invocations]

/-- add_animal only ever appends to the animals collection. -/
theorem add_animal_length (cfg : Config) (L : Landscape) (x y : ℕ) (a : Animal) :
    L.animals.length ≤ (add_animal cfg L x y a).2.animals.length := by
  unfold add_animal
  dsimp only
  repeat' split
  all_goals simp [setCellAnimal]

/-- add_animal never touches the deceased collection. -/
theorem add_animal_dead (cfg : Config) (L : Landscape) (x y : ℕ) (a : Animal) :
    (add_animal cfg L x y a).2.dead_animals = L.dead_animals := by
  unfold add_animal
  dsimp only
  repeat' split
  all_goals simp [setCellAnimal]

/-- add_animal never touches the ghost counters. -/
theorem add_animal_invocations (cfg : Config) (L : Landscape) (x y : ℕ) (a : Animal) :
    (add_animal cfg L x y a).2.invocations = L.invocations := by
  unfold add_animal
  dsimp only
  repeat' split
  all_goals simp [setCellAnimal]

/-- movement keeps the animals length, the deceased collection and the
ghost counters. -/
theorem movement_substate (cfg : Config) (L : Landscape) (aid x y : ℕ) :
    (movement_animal_action cfg L aid x y).animals.length = L.animals.length ∧
    (movement_animal_action cfg L aid x y).dead_animals = L.dead_animals ∧
    (movement_animal_action cfg L aid x y).invocations = L.invocations := by
  refine ⟨?_, ?_, ?_⟩ <;>
    · unfold movement_animal_action
      cases hga : L.animals.get? aid with
      | none => rfl
      | some a =>
          dsimp only
          cases hocc : (L.grid (move_dest cfg a.direction x y).1
              (move_dest cfg a.direction x y).2).animal <;>
            simp [modifyAnimal, setCellAnimal, listModify_length]

/-- eating keeps the animals length, the deceased collection and the
ghost counters. -/
theorem eating_substate (cfg : Config) (o : Oracle) (L : Landscape) (aid x y : ℕ) :
    (eating_animal_action cfg o L aid x y).animals.length = L.animals.length ∧
    (eating_animal_action cfg o L aid x y).dead_animals = L.dead_animals ∧
    (eating_animal_action cfg o L aid x y).invocations = L.invocations := by
  refine ⟨?_, ?_, ?_⟩ <;>
    · unfold eating_animal_action
      repeat' split
      all_goals
        simp [modifyAnimal, modifyPlant, listModify_length]

/-- reproduction only ever appends to the animals collection and leaves
the deceased collection alone. -/
theorem reproduce_substate (cfg : Config) (sw sh : List ℕ) (L : Landscape) (aid : ℕ) :
    SubState L (reproduce_animal_action cfg sw sh L aid) ∧
    (reproduce_animal_action cfg sw sh L aid).dead_animals = L.dead_animals ∧
    (reproduce_animal_action cfg sw sh L aid).invocations = L.invocations := by
  have hmod : ∀ f : Animal → Animal,
      (modifyAnimal L aid f).animals.length = L.animals.length :=
    fun f => listModify_length L.animals aid f
  unfold reproduce_animal_action
  cases hga : L.animals.get? aid with
  | none => exact ⟨⟨le_refl _, fun _ h => h⟩, rfl, rfl⟩
  | some a =>
      dsimp only
      cases hspot : find_empty_spot cfg sw sh L
          (if a.animal_type = AnimaType.Herbivore then AgentType.Herbivore
           else AgentType.Carnivore) with
      | recoverable => exact ⟨⟨le_refl _, fun _ h => h⟩, rfl, rfl⟩
      | panicked => exact ⟨⟨le_refl _, fun _ h => h⟩, rfl, rfl⟩
      | found cx cy =>
          dsimp only
          have hlen : L.animals.length ≤
              (add_animal cfg (modifyAnimal L aid fun _ => a.reproduce_action.1)
                cx cy a.reproduce_action.2).2.animals.length :=
            le_trans (le_of_eq (hmod _).symm) (add_animal_length cfg _ cx cy _)
          have hdead : (add_animal cfg (modifyAnimal L aid fun _ => a.reproduce_action.1)
              cx cy a.reproduce_action.2).2.dead_animals = L.dead_animals :=
            add_animal_dead cfg _ cx cy _
          have hinv : (add_animal cfg (modifyAnimal L aid fun _ => a.reproduce_action.1)
              cx cy a.reproduce_action.2).2.invocations = L.invocations :=
            add_animal_invocations cfg _ cx cy _
          cases hres : (add_animal cfg (modifyAnimal L aid fun _ => a.reproduce_action.1)
              cx cy a.reproduce_action.2).1 with
          | error e =>
              exact ⟨⟨hlen, fun i hi => by rw [hdead]; exact hi⟩, hdead, hinv⟩
          | ok u =>
              cases hat : a.animal_type <;> dsimp only <;> split <;>
                exact ⟨⟨hlen, fun i hi => by rw [hdead]; exact hi⟩, hdead, hinv⟩

/-- One animal simulation step only ever grows the collections. -/
theorem simulate_animal_substate (cfg : Config) (o : Oracle) (L : Landscape)
    (aid x y : ℕ) : SubState L (simulate_animal cfg o L aid x y) := by
  unfold simulate_animal
  cases hga : L.animals.get? aid with
  | none => exact ⟨le_refl _, fun _ h => h⟩
  | some a =>
      dsimp only
      cases hr : (a.action (o.brain aid (percept cfg L a.direction x y))).1 with
      | TurnLeft =>
          exact ⟨by simp [modifyAnimal, listModify_length], fun i hi => hi⟩
      | TurnRight =>
          exact ⟨by simp [modifyAnimal, listModify_length], fun i hi => hi⟩
      | None =>
          exact ⟨by simp [modifyAnimal, listModify_length], fun i hi => hi⟩
      | Move =>
          dsimp only
          refine ⟨?_, ?_⟩
          · rw [(movement_substate cfg _ aid x y).1]
            simp [modifyAnimal, listModify_length]
          · intro i hi
            rw [(movement_substate cfg _ aid x y).2.1]
            exact hi
      | Eat =>
          dsimp only
          refine ⟨?_, ?_⟩
          · rw [(eating_substate cfg o _ aid x y).1]
            simp [modifyAnimal, listModify_length]
          · intro i hi
            rw [(eating_substate cfg o _ aid x y).2.1]
            exact hi
      | Reproduce =>
          dsimp only
          refine substate_trans ?_ (reproduce_substate cfg o.shufW o.shufH _ aid).1
          exact ⟨by simp [modifyAnimal, listModify_length], fun i hi => hi⟩

/-- Processing one cell only ever grows the collections. -/
theorem process_cell_substate (cfg : Config) (o : Oracle) (L : Landscape) (x y : ℕ) :
    SubState L (process_cell cfg o L x y) := by
  unfold process_cell
  split
  · exact substate_refl L
  · have hM : SubState L
        (match (L.grid x y).plant with
         | some pid => simulate_plant cfg o.shufW o.shufH L pid
         | none => L) := by
      cases hpl : (L.grid x y).plant with
      | some pid =>
          exact substate_of_eq (simulate_plant_substate cfg o.shufW o.shufH L pid).1
            (simulate_plant_substate cfg o.shufW o.shufH L pid).2.1
      | none => exact substate_refl L
    revert hM
    generalize (match (L.grid x y).plant with
      | some pid => simulate_plant cfg o.shufW o.shufH L pid
      | none => L) = M
    intro hM
    dsimp only
    split
    · exact hM
    · cases han : (M.grid x y).animal with
      | none => exact hM
      | some aid =>
          dsimp only
          cases hga : M.animals.get? aid with
          | none => exact substate_trans hM ⟨le_refl _, fun _ h => h⟩
          | some a =>
              dsimp only
              split
              · exact hM
              · split
                · exact substate_trans hM ⟨le_refl _, fun _ h => h⟩
                · exact substate_trans hM (simulate_animal_substate cfg o M aid x y)

/-- Folding a collection-growing step grows the collections. -/
theorem foldl_substate {α : Type} (f : Landscape → α → Landscape)
    (h : ∀ M c, SubState M (f M c)) :
    ∀ (l : List α) (M : Landscape), SubState M (l.foldl f M) := by
  intro l
  induction l with
  | nil => exact fun M => substate_refl M
  | cons c l ih => exact fun M => substate_trans (h M c) (ih (f M c))

/-- The whole sweep only ever grows the collections. -/
theorem sweep_substate (cfg : Config) (o : Oracle) (L : Landscape) :
    SubState L (sweep cfg o L) := by
  unfold sweep
  exact foldl_substate _
    (fun M x => foldl_substate _ (fun M2 y => process_cell_substate cfg o M2 x y)
      o.shufH M) o.shufW L

/-- update_best_animal changes no collection. -/
theorem update_best_substate (L : Landscape) (aid : ℕ) :
    (update_best_animal L aid).animals = L.animals ∧
    (update_best_animal L aid).dead_animals = L.dead_animals ∧
    (update_best_animal L aid).invocations = L.invocations := by
  refine ⟨?_, ?_, ?_⟩ <;>
    · unfold update_best_animal
      repeat' split
      all_goals rfl

/-- push_view changes no collection. -/
theorem push_view_substate (L : Landscape) (x y : ℕ) (tmp : List CellStuff) :
    (push_view L x y tmp).animals = L.animals ∧
    (push_view L x y tmp).dead_animals = L.dead_animals ∧
    (push_view L x y tmp).invocations = L.invocations ∧
    (push_view L x y tmp).grid = L.grid ∧
    (push_view L x y tmp).panicked = L.panicked := by
  refine ⟨?_, ?_, ?_, ?_, ?_⟩ <;>
    · unfold push_view
      split
      all_goals rfl

/-- Finalizing one cell only ever grows the collections. -/
theorem final_cell_substate (L : Landscape) (x y : ℕ) :
    SubState L (final_cell L x y) := by
  unfold final_cell
  split
  · exact substate_refl L
  · cases han : (L.grid x y).animal with
    | none =>
        exact substate_of_eq (push_view_substate L x y _).1 (push_view_substate L x y _).2.1
    | some aid =>
        dsimp only
        cases hga : L.animals.get? aid with
        | none => exact ⟨le_refl _, fun _ h => h⟩
        | some a =>
            dsimp only
            split
            · refine ⟨?_, ?_⟩
              · rw [(push_view_substate _ x y _).1, (send_to_heaven_facts L aid x y).2.2.1]
              · intro i hi
                rw [(push_view_substate _ x y _).2.1, (send_to_heaven_facts L aid x y).2.1]
                exact List.mem_append_left _ hi
            · refine ⟨?_, ?_⟩
              · rw [(push_view_substate _ x y _).1, (update_best_substate _ aid).1]
                simp [modifyAnimal, listModify_length]
              · intro i hi
                rw [(push_view_substate _ x y _).2.1, (update_best_substate _ aid).2.1]
                exact hi

/-- The whole end-of-tick processing only ever grows the collections. -/
theorem final_processing_substate (cfg : Config) (L : Landscape) :
    SubState L (final_processing cfg L) := by
  unfold final_processing
  exact foldl_substate _
    (fun M x => foldl_substate _ (fun M2 y => final_cell_substate M2 x y)
      (List.range cfg.height) M) (List.range cfg.width) { L with view_state := [] }

/-- A whole tick only ever grows the collections. -/
theorem tick_substate (cfg : Config) (o : Oracle) (L : Landscape) :
    SubState L (tick cfg o L) := by
  unfold tick
  dsimp only
  split
  · exact sweep_substate cfg o L
  · exact substate_trans (sweep_substate cfg o L)
      (final_processing_substate cfg (sweep cfg o L))

/-- C8, amended: an animal confirmed dead at end-of-tick is removed from
its cell, its index is appended to the deceased collection, but the
owning animals collection is not touched by the removal, the animals
collection never shrinks across a tick, and the deceased collection
keeps every entry across a tick: dead animals are retained indefinitely,
never dropped. -/
theorem C8_dead_animal_retained (cfg : Config) (o : Oracle) (L : Landscape)
    (aid x y : ℕ) :
    ((send_to_heaven L aid x y).grid x y).animal = none ∧
    (send_to_heaven L aid x y).dead_animals = L.dead_animals ++ [aid] ∧
    (send_to_heaven L aid x y).animals = L.animals ∧
    L.animals.length ≤ (tick cfg o L).animals.length ∧
    (∀ i ∈ L.dead_animals, i ∈ (tick cfg o L).dead_animals) := by
  have hs := send_to_heaven_facts L aid x y
  exact ⟨hs.1, hs.2.1, hs.2.2.1, (tick_substate cfg o L).1, (tick_substate cfg o L).2⟩

/-- C8, counterexample: on the one-by-one world holding the dead
herbivore 0, a full tick removes the animal from its cell and records it
in the deceased collection, yet the animal is still resident in the
owning animals collection afterwards, and after a second full tick it is
still both in the owning collection and in the deceased collection:
nothing is dropped after one tick. -/
theorem C8_retained_cex :
    (tick cfg1 oracle1 LDead).animals = [deadProcessedAnimal] ∧
    (tick cfg1 oracle1 LDead).dead_animals = [0] ∧
    ((tick cfg1 oracle1 LDead).grid 0 0).animal = none ∧
    (tick cfg1 oracle1 (tick cfg1 oracle1 LDead)).animals = [deadProcessedAnimal] ∧
    (tick cfg1 oracle1 (tick cfg1 oracle1 LDead)).dead_animals = [0] := by
  have hdd : deadProcessedAnimal.is_dead = true := by
    norm_num [Animal.is_dead, deadProcessedAnimal, sampleHerbivore]
  have hde : deadProcessedAnimal.is_eaten = false := rfl
  have hdp : deadProcessedAnimal.processed = true := rfl
  have hdt : deadProcessedAnimal.animal_type = AnimaType.Herbivore := rfl
  have hr1 : List.range 1 = [0] := by decide
  have hs : sweep cfg1 oracle1 LDead = LDead := by
    simp [sweep, oracle1, process_cell, LDead, hdp]
  have h1 : tick cfg1 oracle1 LDead = final_processing cfg1 LDead := by
    unfold tick
    dsimp only
    rw [hs]
    simp [LDead]
  have hfa : (final_processing cfg1 LDead).animals = [deadProcessedAnimal] := by
    simp [final_processing, cfg1, hr1, final_cell, LDead, hdd, hde, hdt,
      send_to_heaven, push_view, view_first, setCellAnimal]
  have hfd : (final_processing cfg1 LDead).dead_animals = [0] := by
    simp [final_processing, cfg1, hr1, final_cell, LDead, hdd, hde, hdt,
      send_to_heaven, push_view, view_first, setCellAnimal]
  have hfg : ((final_processing cfg1 LDead).grid 0 0).animal = none := by
    simp [final_processing, cfg1, hr1, final_cell, LDead, hdd, hde, hdt,
      send_to_heaven, push_view, view_first, setCellAnimal]
  have hfgp : ((final_processing cfg1 LDead).grid 0 0).plant = none := by
    simp [final_processing, cfg1, hr1, final_cell, LDead, hdd, hde, hdt,
      send_to_heaven, push_view, view_first, setCellAnimal]
  have hfp : (final_processing cfg1 LDead).panicked = false := by
    simp [final_processing, cfg1, hr1, final_cell, LDead, hdd, hde, hdt,
      send_to_heaven, push_view, view_first, setCellAnimal]
  have hgen : ∀ M : Landscape, M.panicked = false → (M.grid 0 0).plant = none →
      (M.grid 0 0).animal = none →
      (tick cfg1 oracle1 M).animals = M.animals ∧
      (tick cfg1 oracle1 M).dead_animals = M.dead_animals := by
    intro M hp hpl han
    have hsM : sweep cfg1 oracle1 M = M := by
      simp [sweep, oracle1, process_cell, hp, hpl, han]
    unfold tick
    dsimp only
    rw [hsM, if_neg (by simp [hp])]
    constructor <;>
      simp [final_processing, cfg1, hr1, final_cell, hp, hpl, han,
        push_view, view_first]
  have hsecond := hgen (final_processing cfg1 LDead) hfp hfgp hfg
  rw [h1]
  exact ⟨hfa, hfd, hfg, by rw [hsecond.1, hfa], by rw [hsecond.2, hfd]⟩

/-- Reading an index holding a value means the index is in range. -/
theorem get?_some_lt {α : Type} (l : List α) (i : ℕ) (a : α)
    (h : l.get? i = some a) : i < l.length := by
  by_contra hh
  rw [List.get?_eq_none.mpr (by omega)] at h
  exact Option.noConfusion h

/-- Appending on the right preserves reads of existing indices. -/
theorem append_get? {α : Type} (l l' : List α) (i : ℕ) (a : α)
    (h : l.get? i = some a) : (l ++ l').get? i = some a := by
  rw [List.get?_append (get?_some_lt l i a h)]
  exact h

/-- FlagKeep is reflexive. -/
theorem flagkeep_refl (L : Landscape) : FlagKeep L L :=
  ⟨rfl, fun i a h hp => ⟨a, h, hp⟩⟩

/-- FlagKeep is transitive. -/
theorem flagkeep_trans {L1 L2 L3 : Landscape} (h1 : FlagKeep L1 L2)
    (h2 : FlagKeep L2 L3) : FlagKeep L1 L3 := by
  refine ⟨h2.1.trans h1.1, fun i a h hp => ?_⟩
  obtain ⟨b, hb, hbp⟩ := h1.2 i a h hp
  exact h2.2 i b hb hbp

/-- States with the same animals and counters trivially keep flags. -/
theorem flagkeep_of_eq {L L' : Landscape} (ha : L'.animals = L.animals)
    (hi : L'.invocations = L.invocations) : FlagKeep L L' :=
  ⟨hi, fun i a h hp => ⟨a, by rw [ha]; exact h, hp⟩⟩

/-- The double-processing invariant survives a flag-keeping step. -/
theorem flagsOK_of_flagkeep {L L' : Landscape} (hOK : FlagsOK L)
    (hk : FlagKeep L L') : FlagsOK L' := by
  intro i
  refine ⟨by rw [hk.1]; exact (hOK i).1, fun h1 => ?_⟩
  rw [hk.1] at h1
  obtain ⟨a, ha, hp⟩ := (hOK i).2 h1
  exact hk.2 i a ha hp

/-- Turning does not touch the processed flag. -/
theorem turn_action_processed (a : Animal) (b : Bool) :
    (a.turn_action b).processed = a.processed := by
  unfold Animal.turn_action
  cases h : a.direction <;> simp

/-- Eating does not touch the processed flag. -/
theorem eat_action_processed (a : Animal) (e : Energy) :
    (a.eat_action e).processed = a.processed := by
  unfold Animal.eat_action
  dsimp only
  split <;> rfl

/-- Being eaten as a herbivore always sets the processed flag. -/
theorem be_eaten_processed_herb (a : Animal)
    (h : a.animal_type = AnimaType.Herbivore) : a.be_eaten.2.processed = true := by
  unfold Animal.be_eaten
  rw [if_pos h]

/-- The action (intend) call always sets the processed flag. -/
theorem action_processed (a : Animal) (c : AnimalAction) :
    (a.action c).2.processed = true := by
  unfold Animal.action
  dsimp only
  split <;> rfl

/-- In-place modification with a flag-respecting function keeps
flags. -/
theorem modifyAnimal_flagkeep (L : Landscape) (j : ℕ) (f : Animal → Animal)
    (hf : ∀ b, b.processed = true → (f b).processed = true) :
    FlagKeep L (modifyAnimal L j f) := by
  refine ⟨rfl, fun i a hga hp => ?_⟩
  by_cases hij : i = j
  · subst hij
    refine ⟨f a, ?_, hf a hp⟩
    rw [modifyAnimal_animals, listModify_get_self, hga]
    rfl
  · refine ⟨a, ?_, hp⟩
    rw [modifyAnimal_animals, listModify_get_other _ _ _ _ hij]
    exact hga

/-- In-place modification at a known slot whose image keeps a set flag
keeps flags. -/
theorem modifyAnimal_flagkeep_at (L : Landscape) (j : ℕ) (f : Animal → Animal)
    (c : Animal) (hgc : L.animals.get? j = some c)
    (hf : c.processed = true → (f c).processed = true) :
    FlagKeep L (modifyAnimal L j f) := by
  refine ⟨rfl, fun i a hga hp => ?_⟩
  by_cases hij : i = j
  · subst hij
    rw [hgc] at hga
    obtain rfl : c = a := Option.some.inj hga
    refine ⟨f c, ?_, hf hp⟩
    rw [modifyAnimal_animals, listModify_get_self, hgc]
    rfl
  · refine ⟨a, ?_, hp⟩
    rw [modifyAnimal_animals, listModify_get_other _ _ _ _ hij]
    exact hga

/-- Inserting a new animal keeps the flags of all existing ones. -/
theorem add_animal_flagkeep (cfg : Config) (L : Landscape) (x y : ℕ) (b : Animal) :
    FlagKeep L (add_animal cfg L x y b).2 := by
  unfold add_animal
  dsimp only
  split
  · exact flagkeep_refl L
  · cases hc : (L.grid (clip (x : ℤ) cfg.width) (clip (y : ℤ) cfg.height)).animal with
    | some bid => exact flagkeep_refl L
    | none =>
        cases hb : b.animal_type <;>
          exact ⟨rfl, fun i a hga hp => ⟨a, append_get? _ _ _ _ hga, hp⟩⟩

/-- Movement resolution keeps flags. -/
theorem movement_flagkeep (cfg : Config) (L : Landscape) (aid x y : ℕ) :
    FlagKeep L (movement_animal_action cfg L aid x y) := by
  unfold movement_animal_action
  cases hga : L.animals.get? aid with
  | none => exact flagkeep_of_eq rfl rfl
  | some a =>
      dsimp only
      cases hocc : (L.grid (move_dest cfg a.direction x y).1
          (move_dest cfg a.direction x y).2).animal with
      | some bid =>
          exact modifyAnimal_flagkeep L aid _ fun b hb => by
            rw [show (b.move_action false).processed = b.processed from rfl]
            exact hb
      | none =>
          refine flagkeep_trans (flagkeep_of_eq rfl rfl :
            FlagKeep L (setCellAnimal (setCellAnimal L _ _ (L.grid x y).animal) x y none))
            (modifyAnimal_flagkeep _ aid _ fun b hb => ?_)
          rw [show (b.move_action true).processed = b.processed from rfl]
          exact hb

/-- Eating resolution keeps flags. -/
theorem eating_flagkeep (cfg : Config) (o : Oracle) (L : Landscape) (aid x y : ℕ) :
    FlagKeep L (eating_animal_action cfg o L aid x y) := by
  unfold eating_animal_action
  cases hga : L.animals.get? aid with
  | none => exact flagkeep_of_eq rfl rfl
  | some a =>
      dsimp only
      cases hat : a.animal_type with
      | Herbivore =>
          cases hch : choose_plant cfg L x y (o.shufArea x y (proximity_of a.direction)) with
          | none => exact flagkeep_refl L
          | some c =>
              dsimp only
              cases hcp : (L.grid c.1 c.2).plant with
              | none => exact flagkeep_refl L
              | some pid =>
                  dsimp only
                  cases hgp : L.plants.get? pid with
                  | none => exact flagkeep_of_eq rfl rfl
                  | some p =>
                      refine flagkeep_trans (flagkeep_of_eq rfl rfl :
                        FlagKeep L (modifyPlant L pid fun _ => p.be_eaten.2))
                        (modifyAnimal_flagkeep _ aid _ fun b hb => ?_)
                      rw [eat_action_processed]
                      exact hb
      | Carnivore =>
          cases hch : choose_animal cfg L AnimaType.Herbivore x y
              (o.shufArea x y (proximity_of a.direction)) with
          | none => exact flagkeep_refl L
          | some c =>
              dsimp only
              cases hca : (L.grid c.1 c.2).animal with
              | none => exact flagkeep_refl L
              | some hid =>
                  dsimp only
                  cases hgh : L.animals.get? hid with
                  | none => exact flagkeep_of_eq rfl rfl
                  | some h =>
                      dsimp only
                      split
                      · exact flagkeep_of_eq rfl rfl
                      · rename_i hnotc
                        have hherb : h.animal_type = AnimaType.Herbivore := by
                          cases hh : h.animal_type
                          · rfl
                          · exact absurd hh hnotc
                        refine flagkeep_trans
                          (modifyAnimal_flagkeep L hid _ fun b hb =>
                            be_eaten_processed_herb h hherb)
                          (modifyAnimal_flagkeep _ aid _ fun b hb => ?_)
                        rw [eat_action_processed]
                        exact hb

/-- Reproduction resolution keeps flags. -/
theorem reproduce_flagkeep (cfg : Config) (sw sh : List ℕ) (L : Landscape)
    (aid : ℕ) : FlagKeep L (reproduce_animal_action cfg sw sh L aid) := by
  unfold reproduce_animal_action
  cases hga : L.animals.get? aid with
  | none => exact flagkeep_of_eq rfl rfl
  | some a =>
      dsimp only
      cases hspot : find_empty_spot cfg sw sh L
          (if a.animal_type = AnimaType.Herbivore then AgentType.Herbivore
           else AgentType.Carnivore) with
      | recoverable => exact flagkeep_refl L
      | panicked => exact flagkeep_of_eq rfl rfl
      | found cx cy =>
          dsimp only
          have h1 : FlagKeep L (modifyAnimal L aid fun _ => a.reproduce_action.1) :=
            modifyAnimal_flagkeep_at L aid _ a hga fun hp => by
              rw [show a.reproduce_action.1.processed = a.processed from rfl]
              exact hp
          have h2 := add_animal_flagkeep cfg
            (modifyAnimal L aid fun _ => a.reproduce_action.1) cx cy a.reproduce_action.2
          have h12 := flagkeep_trans h1 h2
          cases hres : (add_animal cfg (modifyAnimal L aid fun _ => a.reproduce_action.1)
              cx cy a.reproduce_action.2).1 with
          | error e => exact flagkeep_trans h12 (flagkeep_of_eq rfl rfl)
          | ok u =>
              cases hat : a.animal_type <;> dsimp only <;> split <;>
                exact flagkeep_trans h12 (flagkeep_of_eq rfl rfl)

/-- The plant part of a cell keeps flags. -/
theorem simulate_plant_flagkeep (cfg : Config) (sw sh : List ℕ) (L : Landscape)
    (pid : ℕ) : FlagKeep L (simulate_plant cfg sw sh L pid) :=
  flagkeep_of_eq (simulate_plant_substate cfg sw sh L pid).1
    (simulate_plant_substate cfg sw sh L pid).2.2

/-- The state right after the action (intend) call satisfies the
double-processing invariant: the acting animal's counter was zero, is
bumped to one, and the animal is now stored marked processed. -/
theorem flags_after_step (L : Landscape) (aid : ℕ) (a anew : Animal)
    (hga : L.animals.get? aid = some a)
    (hpnew : anew.processed = true) (hOK : FlagsOK L) (hz : L.invocations aid = 0) :
    FlagsOK { modifyAnimal L aid (fun _ => anew) with
      invocations := fun i =>
        if i = aid then (modifyAnimal L aid fun _ => anew).invocations i + 1
        else (modifyAnimal L aid fun _ => anew).invocations i } := by
  intro i
  by_cases hij : i = aid
  · subst hij
    constructor
    · show (if i = i then L.invocations i + 1 else L.invocations i) ≤ 1
      rw [if_pos rfl, hz]
    · intro _
      refine ⟨anew, ?_, hpnew⟩
      show (listModify L.animals i fun _ => anew).get? i = some anew
      rw [listModify_get_self, hga]
      rfl
  · constructor
    · show (if i = aid then L.invocations i + 1 else L.invocations i) ≤ 1
      rw [if_neg hij]
      exact (hOK i).1
    · intro h1
      dsimp only at h1
      rw [if_neg hij] at h1
      obtain ⟨b, hb, hbp⟩ := (hOK i).2 h1
      refine ⟨b, ?_, hbp⟩
      show (listModify L.animals aid fun _ => anew).get? i = some b
      rw [listModify_get_other _ _ _ _ hij]
      exact hb

/-- Simulating one not-yet-processed animal preserves the
double-processing invariant: its counter goes from zero to one and the
resolution step keeps all flags. -/
theorem simulate_animal_flagsOK (cfg : Config) (o : Oracle) (L : Landscape)
    (aid x y : ℕ) (a : Animal) (hga : L.animals.get? aid = some a)
    (hproc : a.processed = false) (hOK : FlagsOK L) :
    FlagsOK (simulate_animal cfg o L aid x y) := by
  have hz : L.invocations aid = 0 := by
    by_contra h
    obtain ⟨b, hb, hbp⟩ := (hOK aid).2 (Nat.one_le_iff_ne_zero.mpr h)
    rw [hga] at hb
    obtain rfl : a = b := Option.some.inj hb
    rw [hproc] at hbp
    exact Bool.noConfusion hbp
  have hE := flags_after_step L aid a
    (a.action (o.brain aid (percept cfg L a.direction x y))).2 hga
    (action_processed a _) hOK hz
  unfold simulate_animal
  rw [hga]
  dsimp only
  cases hr : (a.action (o.brain aid (percept cfg L a.direction x y))).1 with
  | TurnLeft =>
      refine flagsOK_of_flagkeep hE (modifyAnimal_flagkeep _ aid _ fun b hb => ?_)
      rw [turn_action_processed]
      exact hb
  | TurnRight =>
      refine flagsOK_of_flagkeep hE (modifyAnimal_flagkeep _ aid _ fun b hb => ?_)
      rw [turn_action_processed]
      exact hb
  | Move => exact flagsOK_of_flagkeep hE (movement_flagkeep cfg _ aid x y)
  | Eat => exact flagsOK_of_flagkeep hE (eating_flagkeep cfg o _ aid x y)
  | Reproduce =>
      exact flagsOK_of_flagkeep hE (reproduce_flagkeep cfg o.shufW o.shufH _ aid)
  | None =>
      refine flagsOK_of_flagkeep hE (modifyAnimal_flagkeep _ aid _ fun b hb => ?_)
      rw [show b.inactivity_action.processed = b.processed from rfl]
      exact hb

/-- Processing one cell preserves the double-processing invariant. -/
theorem process_cell_flagsOK (cfg : Config) (o : Oracle) (L : Landscape) (x y : ℕ)
    (hOK : FlagsOK L) : FlagsOK (process_cell cfg o L x y) := by
  unfold process_cell
  split
  · exact hOK
  · have hMk : FlagKeep L
        (match (L.grid x y).plant with
         | some pid => simulate_plant cfg o.shufW o.shufH L pid
         | none => L) := by
      cases hpl : (L.grid x y).plant with
      | some pid => exact simulate_plant_flagkeep cfg o.shufW o.shufH L pid
      | none => exact flagkeep_refl L
    have hOKM := flagsOK_of_flagkeep hOK hMk
    revert hOKM
    generalize (match (L.grid x y).plant with
      | some pid => simulate_plant cfg o.shufW o.shufH L pid
      | none => L) = M
    intro hOKM
    dsimp only
    split
    · exact hOKM
    · cases han : (M.grid x y).animal with
      | none => exact hOKM
      | some aid =>
          dsimp only
          cases hga : M.animals.get? aid with
          | none => exact flagsOK_of_flagkeep hOKM (flagkeep_of_eq rfl rfl)
          | some a =>
              dsimp only
              split
              · exact hOKM
              · split
                · exact flagsOK_of_flagkeep hOKM (flagkeep_of_eq rfl rfl)
                · rename_i hnp _
                  exact simulate_animal_flagsOK cfg o M aid x y a hga
                    (Bool.not_eq_true a.processed ▸ Bool.of_not_eq_true hnp) hOKM

/-- A fold of invariant-preserving steps preserves the invariant. -/
theorem foldl_flagsOK {α : Type} (f : Landscape → α → Landscape)
    (h : ∀ M c, FlagsOK M → FlagsOK (f M c)) :
    ∀ (l : List α) (M : Landscape), FlagsOK M → FlagsOK (l.foldl f M) := by
  intro l
  induction l with
  | nil => exact fun M hM => hM
  | cons c l ih => exact fun M hM => ih (f M c) (h M c hM)

/-- The whole sweep preserves the double-processing invariant. -/
theorem sweep_flagsOK (cfg : Config) (o : Oracle) (L : Landscape)
    (hOK : FlagsOK L) : FlagsOK (sweep cfg o L) := by
  unfold sweep
  exact foldl_flagsOK _
    (fun M x hM => foldl_flagsOK _
      (fun M2 y hM2 => process_cell_flagsOK cfg o M2 x y hM2) o.shufH M hM)
    o.shufW L hOK

/-- update_best_animal does not touch the grid. -/
theorem update_best_grid (L : Landscape) (aid : ℕ) :
    (update_best_animal L aid).grid = L.grid := by
  unfold update_best_animal
  repeat' split
  all_goals rfl

/-- Finalizing one cell does not touch the ghost counters. -/
theorem final_cell_invocations (L : Landscape) (x y : ℕ) :
    (final_cell L x y).invocations = L.invocations := by
  unfold final_cell
  split
  · rfl
  · cases han : (L.grid x y).animal with
    | none => exact (push_view_substate L x y _).2.2.1
    | some aid =>
        dsimp only
        cases hga : L.animals.get? aid with
        | none => rfl
        | some a =>
            dsimp only
            split
            · rw [(push_view_substate _ x y _).2.2.1,
                (send_to_heaven_facts L aid x y).2.2.2]
            · rw [(push_view_substate _ x y _).2.2.1,
                (update_best_substate _ aid).2.2]
              rfl

/-- A fold of counter-preserving steps preserves the counters. -/
theorem foldl_invocations {α : Type} (f : Landscape → α → Landscape)
    (h : ∀ M c, (f M c).invocations = M.invocations) :
    ∀ (l : List α) (M : Landscape), (l.foldl f M).invocations = M.invocations := by
  intro l
  induction l with
  | nil => exact fun M => rfl
  | cons c l ih => exact fun M => (ih (f M c)).trans (h M c)

/-- End-of-tick processing does not touch the ghost counters. -/
theorem final_processing_invocations (cfg : Config) (L : Landscape) :
    (final_processing cfg L).invocations = L.invocations := by
  unfold final_processing
  exact foldl_invocations _
    (fun M x => foldl_invocations _ (fun M2 y => final_cell_invocations M2 x y)
      (List.range cfg.height) M)
    (List.range cfg.width) { L with view_state := [] }

/-- A panicked state freezes under final_cell. -/
theorem final_cell_frozen (L : Landscape) (x y : ℕ) (h : L.panicked = true) :
    final_cell L x y = L := by
  unfold final_cell
  rw [if_pos h]

/-- A panicked state freezes under a whole column of final_cell. -/
theorem final_col_frozen (x : ℕ) (ys : List ℕ) :
    ∀ M : Landscape, M.panicked = true →
      ys.foldl (fun M2 y => final_cell M2 x y) M = M := by
  induction ys with
  | nil => exact fun M _ => rfl
  | cons y ys ih =>
      intro M h
      show ys.foldl _ (final_cell M x y) = M
      rw [final_cell_frozen M x y h]
      exact ih M h

/-- A panicked state freezes under the whole final pass. -/
theorem final_outer_frozen (ys xs : List ℕ) :
    ∀ M : Landscape, M.panicked = true →
      xs.foldl (fun M2 x => ys.foldl (fun M3 y => final_cell M3 x y) M2) M = M := by
  induction xs with
  | nil => exact fun M _ => rfl
  | cons x xs ih =>
      intro M h
      show xs.foldl _ (ys.foldl _ M) = M
      rw [final_col_frozen x ys M h]
      exact ih M h

/-- If a column of final_cell ends unpanicked, it started unpanicked. -/
theorem final_col_not_panicked (x : ℕ) (ys : List ℕ) (M : Landscape)
    (h : (ys.foldl (fun M2 y => final_cell M2 x y) M).panicked = false) :
    M.panicked = false := by
  by_contra hh
  have ht : M.panicked = true := by
    cases hp : M.panicked
    · exact absurd hp hh
    · rfl
  rw [final_col_frozen x ys M ht, ht] at h
  exact Bool.noConfusion h

/-- If the final pass ends unpanicked, every intermediate state was
unpanicked. -/
theorem final_outer_not_panicked (ys xs : List ℕ) (M : Landscape)
    (h : (xs.foldl (fun M2 x => ys.foldl (fun M3 y => final_cell M3 x y) M2)
      M).panicked = false) : M.panicked = false := by
  by_contra hh
  have ht : M.panicked = true := by
    cases hp : M.panicked
    · exact absurd hp hh
    · rfl
  rw [final_outer_frozen ys xs M ht, ht] at h
  exact Bool.noConfusion h

/-- Finalizing a cell whose result is unpanicked clears the live animal
residing there. -/
theorem final_cell_establish (L : Landscape) (x y : ℕ)
    (h : (final_cell L x y).panicked = false) : ClearedAt (final_cell L x y) x y := by
  have hp : L.panicked = false := by
    by_contra hh
    have ht : L.panicked = true := by
      cases hq : L.panicked
      · exact absurd hq hh
      · rfl
    rw [final_cell_frozen L x y ht, ht] at h
    exact Bool.noConfusion h
  unfold final_cell at h ⊢
  rw [if_neg (by rw [hp]; exact Bool.false_ne_true)] at h ⊢
  cases han : (L.grid x y).animal with
  | none =>
      intro aid a hcell hga hd
      rw [(push_view_substate L x y _).2.2.2.1, han] at hcell
      exact Option.noConfusion hcell
  | some aid =>
      dsimp only at h ⊢
      cases hga : L.animals.get? aid with
      | none =>
          rw [han] at h
          dsimp only at h
          rw [hga] at h
          dsimp only at h
          exact Bool.noConfusion h
      | some a =>
          dsimp only
          split
          · rename_i hdead
            intro aid' a' hcell hga' hd
            rw [(push_view_substate _ x y _).2.2.2.1,
              (send_to_heaven_facts L aid x y).1] at hcell
            exact Option.noConfusion hcell
          · rename_i hlive
            intro aid' a' hcell hga' hd
            rw [(push_view_substate _ x y _).2.2.2.1, update_best_grid,
              modifyAnimal_grid, han] at hcell
            obtain rfl : aid = aid' := Option.some.inj hcell
            rw [(push_view_substate _ x y _).1, (update_best_substate _ aid).1,
              modifyAnimal_animals, listModify_get_self, hga] at hga'
            obtain rfl : a.clear = a' := Option.some.inj hga'
            rfl

/-- Finalizing any cell preserves the cleared property of a cell. -/
theorem final_cell_preserve (L : Landscape) (x y p q : ℕ)
    (h : ClearedAt L x y) : ClearedAt (final_cell L p q) x y := by
  unfold final_cell
  split
  · exact h
  · cases han : (L.grid p q).animal with
    | none =>
        intro aid a hcell hga hd
        rw [(push_view_substate L p q _).2.2.2.1] at hcell
        rw [(push_view_substate L p q _).1] at hga
        exact h aid a hcell hga hd
    | some bid =>
        dsimp only
        cases hgb : L.animals.get? bid with
        | none =>
            intro aid a hcell hga hd
            exact h aid a hcell hga hd
        | some b =>
            dsimp only
            split
            · intro aid a hcell hga hd
              rw [(push_view_substate _ p q _).2.2.2.1] at hcell
              rw [(push_view_substate _ p q _).1,
                (send_to_heaven_facts L bid p q).2.2.1] at hga
              by_cases hxy : x = p ∧ y = q
              · rw [hxy.1, hxy.2, (send_to_heaven_facts L bid p q).1] at hcell
                exact Option.noConfusion hcell
              · rw [send_to_heaven_grid_other L bid p q x y hxy] at hcell
                exact h aid a hcell hga hd
            · intro aid a hcell hga hd
              rw [(push_view_substate _ p q _).2.2.2.1, update_best_grid,
                modifyAnimal_grid] at hcell
              rw [(push_view_substate _ p q _).1, (update_best_substate _ bid).1,
                modifyAnimal_animals] at hga
              by_cases hab : aid = bid
              · subst hab
                rw [listModify_get_self, hgb] at hga
                obtain rfl : b.clear = a := Option.some.inj hga
                rfl
              · rw [listModify_get_other _ _ _ _ hab] at hga
                exact h aid a hcell hga hd

/-- A column of final_cell preserves the cleared property of a cell. -/
theorem final_col_preserve (p : ℕ) (ys : List ℕ) :
    ∀ (M : Landscape) (x y : ℕ), ClearedAt M x y →
      ClearedAt (ys.foldl (fun M2 q => final_cell M2 p q) M) x y := by
  induction ys with
  | nil => exact fun M x y h => h
  | cons q ys ih =>
      intro M x y h
      exact ih (final_cell M p q) x y (final_cell_preserve M x y p q h)

/-- The whole final pass preserves the cleared property of a cell. -/
theorem final_outer_preserve (ys xs : List ℕ) :
    ∀ (M : Landscape) (x y : ℕ), ClearedAt M x y →
      ClearedAt (xs.foldl (fun M2 p => ys.foldl (fun M3 q => final_cell M3 p q) M2) M)
        x y := by
  induction xs with
  | nil => exact fun M x y h => h
  | cons p xs ih =>
      intro M x y h
      exact ih (ys.foldl _ M) x y (final_col_preserve p ys M x y h)

/-- An unpanicked column of final_cell clears every cell it visits. -/
theorem final_col_establish (p : ℕ) (ys : List ℕ) :
    ∀ M : Landscape,
      (ys.foldl (fun M2 q => final_cell M2 p q) M).panicked = false →
      ∀ y ∈ ys, ClearedAt (ys.foldl (fun M2 q => final_cell M2 p q) M) p y := by
  induction ys with
  | nil => intro M _ y hy; exact absurd hy (List.not_mem_nil y)
  | cons q ys ih =>
      intro M hres y hy
      have hres' : (ys.foldl (fun M2 q => final_cell M2 p q)
          (final_cell M p q)).panicked = false := hres
      rcases List.mem_cons.mp hy with rfl | hy'
      · have h0 : (final_cell M p y).panicked = false :=
          final_col_not_panicked p ys (final_cell M p y) hres'
        exact final_col_preserve p ys (final_cell M p y) p y
          (final_cell_establish M p y h0)
      · exact ih (final_cell M p q) hres' y hy'

/-- An unpanicked final pass clears every visited cell. -/
theorem final_outer_establish (ys xs : List ℕ) :
    ∀ M : Landscape,
      (xs.foldl (fun M2 p => ys.foldl (fun M3 q => final_cell M3 p q) M2)
        M).panicked = false →
      ∀ x ∈ xs, ∀ y ∈ ys,
        ClearedAt (xs.foldl (fun M2 p => ys.foldl (fun M3 q => final_cell M3 p q) M2) M)
          x y := by
  induction xs with
  | nil => intro M _ x hx; exact absurd hx (List.not_mem_nil x)
  | cons p xs ih =>
      intro M hres x hx y hy
      have hres' : (xs.foldl (fun M2 p => ys.foldl (fun M3 q => final_cell M3 p q) M2)
          (ys.foldl (fun M3 q => final_cell M3 p q) M)).panicked = false := hres
      rcases List.mem_cons.mp hx with rfl | hx'
      · have h1 : (ys.foldl (fun M3 q => final_cell M3 x q) M).panicked = false :=
          final_outer_not_panicked ys xs (ys.foldl _ M) hres'
        exact final_outer_preserve ys xs (ys.foldl _ M) x y
          (final_col_establish x ys M h1 y hy)
      · exact ih (ys.foldl _ M) hres' x hx' y hy

/-- C5: within one tick no animal goes through the action (intend) call
more than once (the ghost invocation counter of every animal index is at
most one after a tick that started with all counters zero), and when the
tick completes without a panic, every live animal residing in a cell of
the grid has its processed flag cleared by the end-of-tick processing. -/
theorem C5_processed_once_per_tick (cfg : Config) (o : Oracle) (L : Landscape)
    (h0 : ∀ i, L.invocations i = 0) :
    (∀ i, (tick cfg o L).invocations i ≤ 1) ∧
    ((tick cfg o L).panicked = false →
      ∀ x y aid a, x < cfg.width → y < cfg.height →
        ((tick cfg o L).grid x y).animal = some aid →
        (tick cfg o L).animals.get? aid = some a →
        a.is_dead = false → a.processed = false) := by
  have hOK0 : FlagsOK L := by
    intro i
    refine ⟨by rw [h0 i]; exact Nat.zero_le 1, fun h1 => ?_⟩
    rw [h0 i] at h1
    exact absurd h1 (by omega)
  have hOKs := sweep_flagsOK cfg o L hOK0
  unfold tick
  dsimp only
  cases hsp : (sweep cfg o L).panicked with
  | true =>
      rw [if_pos (rfl : (true : Bool) = true)]
      refine ⟨fun i => (hOKs i).1, fun hpan => ?_⟩
      rw [hsp] at hpan
      exact Bool.noConfusion hpan
  | false =>
      rw [if_neg Bool.false_ne_true]
      constructor
      · intro i
        rw [final_processing_invocations cfg (sweep cfg o L)]
        exact (hOKs i).1
      · intro hpan x y aid a hx hy hcell hga hd
        unfold final_processing at hpan hcell hga
        exact final_outer_establish (List.range cfg.height) (List.range cfg.width)
          { sweep cfg o L with view_state := [] } hpan
          x (List.mem_range.mpr hx) y (List.mem_range.mpr hy)
          aid a hcell hga hd

/-- C5, witness: the double-processing bound evaluated on the concrete
one-by-one world, whose ghost counters all start at zero. -/
theorem C5_processed_once_per_tick_witness :
    (tick cfg1 oracle1 LDead).invocations 0 ≤ 1 :=
  (C5_processed_once_per_tick cfg1 oracle1 LDead (fun _ => rfl)).1 0

end Evolution
